import Mathlib

/-!
Verification of the EV routing-with-charging optimization system.

This file gives a shallow embedding, over exact rational arithmetic, of

* the single-vehicle routing formulation built by
  `get_ev_routing_abstract_model` (src/model/ev_routing_model.py), in both
  its quadratically-constrained form (`linearize_constraints=False`) and its
  big-M linearized form (`linearize_constraints=True`);
* the per-vehicle solution extractor `extract_solution_data` and the
  visited-row filter used by `create_solution_map`
  (src/routing_model/save_ev_solution_data.py);
* the scenario demand aggregator `extract_aggregated_demand`
  (src/routing_model/save_scenario_solution_data.py).

An assignment of rational values to the Pyomo decision variables is feasible
when it satisfies every constraint generated by the model builder; the
constraint predicates below transcribe those constraint rules one by one,
keeping the source names (c36, c43, cA6, ...).
-/

namespace EVRouting

/-- Sets and parameters of the abstract Pyomo model: one road network plus
the scalar vehicle parameters, exactly the `pyo.Set`/`pyo.Param` components
declared in `get_ev_routing_abstract_model`.  Intersections and paths are
identified by integer ids; indexed parameters are total functions on the id
type, read only on the corresponding index set. -/
structure RoutingInstance where
  sIntersections : Finset ℤ
  sPaths : Finset ℤ
  sDeliveryPoints : Finset ℤ
  sChargingStations : Finset ℤ
  pAccelerationEfficiency : ℚ
  pBrakingEfficiency : ℚ
  pMinSoC : ℚ
  pMaxSoC : ℚ
  pStartingSoC : ℚ
  pStartingTime : ℚ
  pMaxTime : ℚ
  pStartingPoint : ℤ
  pEndingPoint : ℤ
  pNumIntersections : ℕ
  pOriginIntersection : ℤ → ℤ
  pDestinationIntersection : ℤ → ℤ
  pPathLength : ℤ → ℚ
  pAvgSpeed : ℤ → ℚ
  pAccelerationBrakingTime : ℤ → ℚ
  pDistanceAtAvgSpeed : ℤ → ℚ
  pPowerConsAtAvgSpeed : ℤ → ℚ
  pKineticEnergy : ℤ → ℚ
  pTimeMakingDelivery : ℤ → ℚ
  pTimeWithoutPenalty : ℤ → ℚ
  pDelayPenalty : ℤ → ℚ
  pChargingPower : ℤ → ℚ
  pChargingPrice : ℤ → ℚ
  pMaxChargingTime : ℤ → ℚ
  pMinChargingTime : ℤ → ℚ
  pChargerEfficiencyRate : ℤ → ℚ

/-- Structural facts guaranteed by the Pyomo set/parameter domains
(`within=m.sIntersections`, `within=pyo.NonNegativeReals`): the distinguished
node subsets are subsets of the intersections, every path endpoint is an
intersection, and every declared parameter is non-negative. -/
abbrev WellFormed (I : RoutingInstance) : Prop :=
  I.sDeliveryPoints ⊆ I.sIntersections ∧
  I.sChargingStations ⊆ I.sIntersections ∧
  I.pStartingPoint ∈ I.sIntersections ∧
  I.pEndingPoint ∈ I.sIntersections ∧
  (∀ p ∈ I.sPaths, I.pOriginIntersection p ∈ I.sIntersections ∧
    I.pDestinationIntersection p ∈ I.sIntersections) ∧
  0 ≤ I.pAccelerationEfficiency ∧ 0 ≤ I.pBrakingEfficiency ∧
  0 ≤ I.pMinSoC ∧ 0 ≤ I.pMaxSoC ∧ 0 ≤ I.pStartingSoC ∧
  0 ≤ I.pStartingTime ∧ 0 ≤ I.pMaxTime ∧
  (∀ p ∈ I.sPaths, 0 ≤ I.pPathLength p ∧ 0 ≤ I.pAvgSpeed p ∧
    0 ≤ I.pAccelerationBrakingTime p ∧ 0 ≤ I.pDistanceAtAvgSpeed p ∧
    0 ≤ I.pPowerConsAtAvgSpeed p ∧ 0 ≤ I.pKineticEnergy p) ∧
  (∀ d ∈ I.sDeliveryPoints, 0 ≤ I.pTimeMakingDelivery d ∧
    0 ≤ I.pTimeWithoutPenalty d ∧ 0 ≤ I.pDelayPenalty d) ∧
  (∀ s ∈ I.sChargingStations, 0 ≤ I.pChargingPower s ∧ 0 ≤ I.pChargingPrice s ∧
    0 ≤ I.pMaxChargingTime s ∧ 0 ≤ I.pMinChargingTime s ∧
    0 ≤ I.pChargerEfficiencyRate s)

/-- Values for every decision variable of the model (the auxiliary
linearization variables `vXiSoC`/`vZetaTime` are carried along and are
constrained only in the linearized variant). -/
structure RoutingAssignment where
  v01Charge : ℤ → ℚ
  v01TravelPath : ℤ → ℚ
  v01VisitIntersection : ℤ → ℚ
  vSoCArrival : ℤ → ℚ
  vSoCDeparture : ℤ → ℚ
  vTimeArrival : ℤ → ℚ
  vTimeDeparture : ℤ → ℚ
  vTimeCharging : ℤ → ℚ
  vTimeDelay : ℤ → ℚ
  vXiSoC : ℤ → ℚ
  vZetaTime : ℤ → ℚ

/-- Energy lost traversing a path: consumption at average speed plus the
acceleration/braking kinetic-energy term, the parenthesised path expression
shared by both versions of constraint c43. -/
def pathEnergyLoss (I : RoutingInstance) (p : ℤ) : ℚ :=
  I.pPowerConsAtAvgSpeed p * (I.pDistanceAtAvgSpeed p / I.pAvgSpeed p) +
    (1 / I.pAccelerationEfficiency - I.pBrakingEfficiency) * I.pKineticEnergy p

/-- Time spent traversing a path: time at average speed plus the
acceleration/braking time, the path expression shared by both versions of
constraint c46. -/
def pathTravelTime (I : RoutingInstance) (p : ℤ) : ℚ :=
  I.pDistanceAtAvgSpeed p / I.pAvgSpeed p + I.pAccelerationBrakingTime p

/-- Variable domain conditions from the `pyo.Var` declarations: the three
`Binary` families take values in {0,1} and the continuous families are
`NonNegativeReals`. -/
abbrev VarDomains (I : RoutingInstance) (σ : RoutingAssignment) : Prop :=
  (∀ s ∈ I.sChargingStations, σ.v01Charge s = 0 ∨ σ.v01Charge s = 1) ∧
  (∀ p ∈ I.sPaths, σ.v01TravelPath p = 0 ∨ σ.v01TravelPath p = 1) ∧
  (∀ i ∈ I.sIntersections, σ.v01VisitIntersection i = 0 ∨ σ.v01VisitIntersection i = 1) ∧
  (∀ i ∈ I.sIntersections, 0 ≤ σ.vSoCArrival i) ∧
  (∀ i ∈ I.sIntersections, 0 ≤ σ.vSoCDeparture i) ∧
  (∀ i ∈ I.sIntersections, 0 ≤ σ.vTimeArrival i) ∧
  (∀ i ∈ I.sIntersections, 0 ≤ σ.vTimeDeparture i) ∧
  (∀ s ∈ I.sChargingStations, 0 ≤ σ.vTimeCharging s) ∧
  (∀ d ∈ I.sDeliveryPoints, 0 ≤ σ.vTimeDelay d)

/-- Objective c34: charging cost plus delay penalty. -/
def objective (I : RoutingInstance) (σ : RoutingAssignment) : ℚ :=
  (∑ s in I.sChargingStations,
    I.pChargingPrice s * I.pChargingPower s * σ.vTimeCharging s *
      I.pChargerEfficiencyRate s) +
  ∑ d in I.sDeliveryPoints, I.pDelayPenalty d * σ.vTimeDelay d

/-- Constraint c36: every intersection other than the ending point is the
origin of exactly `visit` traversed paths. -/
abbrev c36_visit_intersection_when_origin_of_path (I : RoutingInstance)
    (σ : RoutingAssignment) : Prop :=
  ∀ i ∈ I.sIntersections, i ≠ I.pEndingPoint →
    ∑ p in I.sPaths.filter (fun p => I.pOriginIntersection p = i),
      σ.v01TravelPath p = σ.v01VisitIntersection i

/-- Constraint c37: the ending point originates no traversed path. -/
abbrev c37_ending_point_cannot_be_origin (I : RoutingInstance)
    (σ : RoutingAssignment) : Prop :=
  ∑ p in I.sPaths.filter (fun p => I.pOriginIntersection p = I.pEndingPoint),
    σ.v01TravelPath p = 0

/-- Constraint c38: every intersection other than the starting point is the
destination of exactly `visit` traversed paths. -/
abbrev c38_visit_intersection_when_destination_of_path (I : RoutingInstance)
    (σ : RoutingAssignment) : Prop :=
  ∀ i ∈ I.sIntersections, i ≠ I.pStartingPoint →
    ∑ p in I.sPaths.filter (fun p => I.pDestinationIntersection p = i),
      σ.v01TravelPath p = σ.v01VisitIntersection i

/-- Constraint c39: the starting point is the destination of no traversed
path. -/
abbrev c39_starting_point_cannot_be_destination (I : RoutingInstance)
    (σ : RoutingAssignment) : Prop :=
  ∑ p in I.sPaths.filter (fun p => I.pDestinationIntersection p = I.pStartingPoint),
    σ.v01TravelPath p = 0

/-- Constraint c40: the starting point is visited. -/
abbrev c40_visit_starting_point (I : RoutingInstance) (σ : RoutingAssignment) : Prop :=
  σ.v01VisitIntersection I.pStartingPoint = 1

/-- Constraint c41: every delivery point is visited. -/
abbrev c41_visit_delivery_point (I : RoutingInstance) (σ : RoutingAssignment) : Prop :=
  ∀ d ∈ I.sDeliveryPoints, σ.v01VisitIntersection d = 1

/-- Constraint c24 (arrival, lower half): `socArrival ≥ visit · pMinSoC`. -/
abbrev c24_soc_arrival_lower_bound (I : RoutingInstance) (σ : RoutingAssignment) : Prop :=
  ∀ i ∈ I.sIntersections,
    σ.vSoCArrival i ≥ σ.v01VisitIntersection i * I.pMinSoC

/-- Constraint c24 (arrival, upper half): `socArrival ≤ visit · pMaxSoC`. -/
abbrev c24_soc_arrival_upper_bound (I : RoutingInstance) (σ : RoutingAssignment) : Prop :=
  ∀ i ∈ I.sIntersections,
    σ.vSoCArrival i ≤ σ.v01VisitIntersection i * I.pMaxSoC

/-- Constraint c24 (departure, lower half), generated only when
`linearize_constraints=False`. -/
abbrev c24_soc_departure_lower_bound (I : RoutingInstance) (σ : RoutingAssignment) : Prop :=
  ∀ i ∈ I.sIntersections,
    σ.vSoCDeparture i ≥ σ.v01VisitIntersection i * I.pMinSoC

/-- Constraint c24 (departure, upper half), generated only when
`linearize_constraints=False`. -/
abbrev c24_soc_departure_upper_bound (I : RoutingInstance) (σ : RoutingAssignment) : Prop :=
  ∀ i ∈ I.sIntersections,
    σ.vSoCDeparture i ≤ σ.v01VisitIntersection i * I.pMaxSoC

/-- Constraint c25: departure SoC at a charging station is arrival SoC plus
`power · chargingTime · efficiency`. -/
abbrev c25_soc_departure_charging_station (I : RoutingInstance) (σ : RoutingAssignment) : Prop :=
  ∀ s ∈ I.sChargingStations,
    σ.vSoCDeparture s =
      σ.vSoCArrival s + I.pChargingPower s * σ.vTimeCharging s * I.pChargerEfficiencyRate s

/-- Constraint c27: departure SoC equals arrival SoC away from charging
stations. -/
abbrev c27_soc_departure_non_charging_station (I : RoutingInstance) (σ : RoutingAssignment) : Prop :=
  ∀ i ∈ I.sIntersections \ I.sChargingStations, σ.vSoCDeparture i = σ.vSoCArrival i

/-- Constraint c42: arrival SoC at the starting point is
`visit · pStartingSoC`. -/
abbrev c42_soc_starting_point (I : RoutingInstance) (σ : RoutingAssignment) : Prop :=
  σ.vSoCArrival I.pStartingPoint =
    σ.v01VisitIntersection I.pStartingPoint * I.pStartingSoC

/-- Constraint c43 in its original quadratic form: arrival SoC balances the
departure SoC of the traversed predecessor minus the path's energy loss. -/
abbrev c43_soc_arrival_energy_balance_quad (I : RoutingInstance) (σ : RoutingAssignment) : Prop :=
  ∀ i ∈ I.sIntersections, i ≠ I.pStartingPoint →
    σ.vSoCArrival i =
      ∑ p in I.sPaths.filter (fun p => I.pDestinationIntersection p = i),
        σ.v01TravelPath p * (σ.vSoCDeparture (I.pOriginIntersection p) - pathEnergyLoss I p)

/-- Constraint c43 in its linearized form, with `vXiSoC` standing for the
bilinear product `travel · socDeparture(origin)`. -/
abbrev c43_soc_arrival_energy_balance_lin (I : RoutingInstance) (σ : RoutingAssignment) : Prop :=
  ∀ i ∈ I.sIntersections, i ≠ I.pStartingPoint →
    σ.vSoCArrival i =
      ∑ p in I.sPaths.filter (fun p => I.pDestinationIntersection p = i),
        (σ.vXiSoC p - σ.v01TravelPath p * pathEnergyLoss I p)

/-- Constraint c44: departure SoC at the ending point is at least
`visit · pStartingSoC`. -/
abbrev c44_soc_ending_point (I : RoutingInstance) (σ : RoutingAssignment) : Prop :=
  σ.vSoCDeparture I.pEndingPoint ≥
    σ.v01VisitIntersection I.pEndingPoint * I.pStartingSoC

/-- Constraint c45: arrival time at the starting point is
`visit · pStartingTime`. -/
abbrev c45_time_arrival_starting_point (I : RoutingInstance) (σ : RoutingAssignment) : Prop :=
  σ.vTimeArrival I.pStartingPoint =
    σ.v01VisitIntersection I.pStartingPoint * I.pStartingTime

/-- Constraint c46 in its original quadratic form: arrival time balances the
departure time of the traversed predecessor plus the path's travel time. -/
abbrev c46_time_arrival_balance_quad (I : RoutingInstance) (σ : RoutingAssignment) : Prop :=
  ∀ i ∈ I.sIntersections, i ≠ I.pStartingPoint →
    σ.vTimeArrival i =
      ∑ p in I.sPaths.filter (fun p => I.pDestinationIntersection p = i),
        σ.v01TravelPath p * (σ.vTimeDeparture (I.pOriginIntersection p) + pathTravelTime I p)

/-- Constraint c46 in its linearized form, with `vZetaTime` standing for the
bilinear product `travel · timeDeparture(origin)`. -/
abbrev c46_time_arrival_balance_lin (I : RoutingInstance) (σ : RoutingAssignment) : Prop :=
  ∀ i ∈ I.sIntersections, i ≠ I.pStartingPoint →
    σ.vTimeArrival i =
      ∑ p in I.sPaths.filter (fun p => I.pDestinationIntersection p = i),
        (σ.vZetaTime p + σ.v01TravelPath p * pathTravelTime I p)

/-- Constraint c47: departure time at a delivery point is arrival time plus
the delivery duration. -/
abbrev c47_time_departure_delivery_point (I : RoutingInstance) (σ : RoutingAssignment) : Prop :=
  ∀ d ∈ I.sDeliveryPoints, σ.vTimeDeparture d = σ.vTimeArrival d + I.pTimeMakingDelivery d

/-- Constraint c48: departure time at a charging station is arrival time plus
the charging duration. -/
abbrev c48_time_departure_charging_station (I : RoutingInstance) (σ : RoutingAssignment) : Prop :=
  ∀ s ∈ I.sChargingStations, σ.vTimeDeparture s = σ.vTimeArrival s + σ.vTimeCharging s

/-- Constraint c49 (lower half): `chargingTime ≥ charge · pMinChargingTime`. -/
abbrev c49_charging_time_lower_bound (I : RoutingInstance) (σ : RoutingAssignment) : Prop :=
  ∀ s ∈ I.sChargingStations,
    σ.vTimeCharging s ≥ σ.v01Charge s * I.pMinChargingTime s

/-- Constraint c49 (upper half): `chargingTime ≤ charge · pMaxChargingTime`. -/
abbrev c49_charging_time_upper_bound (I : RoutingInstance) (σ : RoutingAssignment) : Prop :=
  ∀ s ∈ I.sChargingStations,
    σ.vTimeCharging s ≤ σ.v01Charge s * I.pMaxChargingTime s

/-- Constraint c50: charging requires visiting. -/
abbrev c50_charge_only_when_visiting (I : RoutingInstance) (σ : RoutingAssignment) : Prop :=
  ∀ s ∈ I.sChargingStations, σ.v01Charge s ≤ σ.v01VisitIntersection s

/-- Constraint c51: at a regular intersection (neither charging station nor
delivery point) departure time equals arrival time. -/
abbrev c51_time_departure_regular_intersection (I : RoutingInstance) (σ : RoutingAssignment) : Prop :=
  ∀ i ∈ (I.sIntersections \ I.sChargingStations) \ I.sDeliveryPoints,
    σ.vTimeDeparture i = σ.vTimeArrival i

/-- Constraint c52: arrival time at the ending point is at most
`visit · pMaxTime`. -/
abbrev c52_time_arrival_ending_point_limit (I : RoutingInstance) (σ : RoutingAssignment) : Prop :=
  σ.vTimeArrival I.pEndingPoint ≤
    σ.v01VisitIntersection I.pEndingPoint * I.pMaxTime

/-- Constraint c54: arrival at a delivery point past its no-penalty deadline
accrues delay. -/
abbrev c54_delivery_time_with_delay (I : RoutingInstance) (σ : RoutingAssignment) : Prop :=
  ∀ d ∈ I.sDeliveryPoints,
    σ.vTimeArrival d ≤ I.pTimeWithoutPenalty d + σ.vTimeDelay d

/-- Linearization constraint cA7 (lower): `vXiSoC ≥ 0`. -/
abbrev cA7_xi_lower_bound (I : RoutingInstance) (σ : RoutingAssignment) : Prop :=
  ∀ p ∈ I.sPaths, σ.vXiSoC p ≥ 0

/-- Linearization constraint cA7 (upper): `vXiSoC ≤ pMaxSoC · travel`. -/
abbrev cA7_xi_upper_bound (I : RoutingInstance) (σ : RoutingAssignment) : Prop :=
  ∀ p ∈ I.sPaths, σ.vXiSoC p ≤ I.pMaxSoC * σ.v01TravelPath p

/-- Linearization constraint cA6 (lower): `socDeparture(origin) − vXiSoC ≥ 0`. -/
abbrev cA6_soc_minus_xi_lower_bound (I : RoutingInstance) (σ : RoutingAssignment) : Prop :=
  ∀ p ∈ I.sPaths, σ.vSoCDeparture (I.pOriginIntersection p) - σ.vXiSoC p ≥ 0

/-- Linearization constraint cA6 (upper):
`socDeparture(origin) − vXiSoC ≤ pMaxSoC · (1 − travel)`. -/
abbrev cA6_soc_minus_xi_upper_bound (I : RoutingInstance) (σ : RoutingAssignment) : Prop :=
  ∀ p ∈ I.sPaths,
    σ.vSoCDeparture (I.pOriginIntersection p) - σ.vXiSoC p ≤
      I.pMaxSoC * (1 - σ.v01TravelPath p)

/-- Linearization constraint cA11 (lower): `vZetaTime ≥ 0`. -/
abbrev cA11_zeta_lower_bound (I : RoutingInstance) (σ : RoutingAssignment) : Prop :=
  ∀ p ∈ I.sPaths, σ.vZetaTime p ≥ 0

/-- Linearization constraint cA11 (upper): `vZetaTime ≤ pMaxTime · travel`. -/
abbrev cA11_zeta_upper_bound (I : RoutingInstance) (σ : RoutingAssignment) : Prop :=
  ∀ p ∈ I.sPaths, σ.vZetaTime p ≤ I.pMaxTime * σ.v01TravelPath p

/-- Linearization constraint cA10 (lower):
`timeDeparture(origin) − vZetaTime ≥ 0`. -/
abbrev cA10_time_minus_zeta_lower_bound (I : RoutingInstance) (σ : RoutingAssignment) : Prop :=
  ∀ p ∈ I.sPaths, σ.vTimeDeparture (I.pOriginIntersection p) - σ.vZetaTime p ≥ 0

/-- Linearization constraint cA10 (upper):
`timeDeparture(origin) − vZetaTime ≤ pMaxTime · (1 − travel)`. -/
abbrev cA10_time_minus_zeta_upper_bound (I : RoutingInstance) (σ : RoutingAssignment) : Prop :=
  ∀ p ∈ I.sPaths,
    σ.vTimeDeparture (I.pOriginIntersection p) - σ.vZetaTime p ≤
      I.pMaxTime * (1 - σ.v01TravelPath p)

/-- Navigation constraints common to both variants. -/
abbrev NavConstraints (I : RoutingInstance) (σ : RoutingAssignment) : Prop :=
  c36_visit_intersection_when_origin_of_path I σ ∧
  c37_ending_point_cannot_be_origin I σ ∧
  c38_visit_intersection_when_destination_of_path I σ ∧
  c39_starting_point_cannot_be_destination I σ ∧
  c40_visit_starting_point I σ ∧
  c41_visit_delivery_point I σ

/-- Battery constraints common to both variants. -/
abbrev BatteryCommon (I : RoutingInstance) (σ : RoutingAssignment) : Prop :=
  c24_soc_arrival_lower_bound I σ ∧
  c24_soc_arrival_upper_bound I σ ∧
  c25_soc_departure_charging_station I σ ∧
  c27_soc_departure_non_charging_station I σ ∧
  c42_soc_starting_point I σ ∧
  c44_soc_ending_point I σ

/-- Time constraints common to both variants. -/
abbrev TimeCommon (I : RoutingInstance) (σ : RoutingAssignment) : Prop :=
  c45_time_arrival_starting_point I σ ∧
  c47_time_departure_delivery_point I σ ∧
  c48_time_departure_charging_station I σ ∧
  c49_charging_time_lower_bound I σ ∧
  c49_charging_time_upper_bound I σ ∧
  c50_charge_only_when_visiting I σ ∧
  c51_time_departure_regular_intersection I σ ∧
  c52_time_arrival_ending_point_limit I σ ∧
  c54_delivery_time_with_delay I σ

/-- Feasibility for the quadratically-constrained variant
(`linearize_constraints=False`): variable domains plus every generated
constraint, including both c24 departure bounds and the bilinear balance
constraints. -/
abbrev QuadFeasible (I : RoutingInstance) (σ : RoutingAssignment) : Prop :=
  VarDomains I σ ∧
  NavConstraints I σ ∧
  BatteryCommon I σ ∧
  c24_soc_departure_lower_bound I σ ∧
  c24_soc_departure_upper_bound I σ ∧
  c43_soc_arrival_energy_balance_quad I σ ∧
  TimeCommon I σ ∧
  c46_time_arrival_balance_quad I σ

/-- Feasibility for the linearized variant (`linearize_constraints=True`):
variable domains (including non-negativity of the auxiliary variables from
their `NonNegativeReals` declaration), every common constraint, the
linearized balance constraints and the eight big-M bound constraint
families; the c24 departure bounds are not generated in this variant. -/
abbrev LinFeasible (I : RoutingInstance) (σ : RoutingAssignment) : Prop :=
  VarDomains I σ ∧
  (∀ p ∈ I.sPaths, 0 ≤ σ.vXiSoC p) ∧
  (∀ p ∈ I.sPaths, 0 ≤ σ.vZetaTime p) ∧
  NavConstraints I σ ∧
  BatteryCommon I σ ∧
  c43_soc_arrival_energy_balance_lin I σ ∧
  TimeCommon I σ ∧
  c46_time_arrival_balance_lin I σ ∧
  cA7_xi_lower_bound I σ ∧
  cA7_xi_upper_bound I σ ∧
  cA6_soc_minus_xi_lower_bound I σ ∧
  cA6_soc_minus_xi_upper_bound I σ ∧
  cA11_zeta_lower_bound I σ ∧
  cA11_zeta_upper_bound I σ ∧
  cA10_time_minus_zeta_lower_bound I σ ∧
  cA10_time_minus_zeta_upper_bound I σ

/-- Concrete two-node network used to exercise the theorems: start node 1,
end node 2, one path 1→2 of unit travel time and unit energy loss; node 2 is
both a delivery point (duration 2) and a charging station (power 1,
efficiency 1, dwell in [0,5]). -/
def IW : RoutingInstance where
  sIntersections := {1, 2}
  sPaths := {10}
  sDeliveryPoints := {2}
  sChargingStations := {2}
  pAccelerationEfficiency := 1
  pBrakingEfficiency := 0
  pMinSoC := 0
  pMaxSoC := 10
  pStartingSoC := 5
  pStartingTime := 0
  pMaxTime := 10
  pStartingPoint := 1
  pEndingPoint := 2
  pNumIntersections := 2
  pOriginIntersection := fun _ => 1
  pDestinationIntersection := fun _ => 2
  pPathLength := fun _ => 1
  pAvgSpeed := fun _ => 1
  pAccelerationBrakingTime := fun _ => 0
  pDistanceAtAvgSpeed := fun _ => 1
  pPowerConsAtAvgSpeed := fun _ => 1
  pKineticEnergy := fun _ => 0
  pTimeMakingDelivery := fun _ => 2
  pTimeWithoutPenalty := fun _ => 10
  pDelayPenalty := fun _ => 1
  pChargingPower := fun _ => 1
  pChargingPrice := fun _ => 1
  pMaxChargingTime := fun _ => 5
  pMinChargingTime := fun _ => 0
  pChargerEfficiencyRate := fun _ => 1

/-- An assignment traversing 1→2, charging 2 hours at node 2 (forced equal to
the delivery duration there); feasible for both formulation variants. -/
def σW : RoutingAssignment where
  v01Charge := fun _ => 1
  v01TravelPath := fun _ => 1
  v01VisitIntersection := fun _ => 1
  vSoCArrival := fun i => if i = 1 then 5 else 4
  vSoCDeparture := fun i => if i = 1 then 5 else 6
  vTimeArrival := fun i => if i = 1 then 0 else 1
  vTimeDeparture := fun i => if i = 1 then 0 else 3
  vTimeCharging := fun _ => 2
  vTimeDelay := fun _ => 0
  vXiSoC := fun _ => 5
  vZetaTime := fun _ => 0

/-- Variant of `IW` whose starting SoC (1) lies strictly below the SoC floor
(2). -/
def I7 : RoutingInstance :=
  { IW with pStartingSoC := 1, pMinSoC := 2 }

/-- The concrete instance `IW` is well-formed. -/
theorem IW_wellformed : WellFormed IW := by
  norm_num [WellFormed, IW, Finset.forall_mem_insert, Finset.insert_subset_iff]

/-- The concrete assignment `σW` is feasible for the quadratic variant on
`IW`. -/
theorem IW_quad_feasible : QuadFeasible IW σW := by
  norm_num [QuadFeasible, VarDomains, NavConstraints, BatteryCommon, TimeCommon,
    c36_visit_intersection_when_origin_of_path, c37_ending_point_cannot_be_origin,
    c38_visit_intersection_when_destination_of_path,
    c39_starting_point_cannot_be_destination, c40_visit_starting_point,
    c41_visit_delivery_point, c24_soc_arrival_lower_bound,
    c24_soc_arrival_upper_bound, c24_soc_departure_lower_bound,
    c24_soc_departure_upper_bound, c25_soc_departure_charging_station,
    c27_soc_departure_non_charging_station, c42_soc_starting_point,
    c43_soc_arrival_energy_balance_quad, c44_soc_ending_point,
    c45_time_arrival_starting_point, c46_time_arrival_balance_quad,
    c47_time_departure_delivery_point, c48_time_departure_charging_station,
    c49_charging_time_lower_bound, c49_charging_time_upper_bound,
    c50_charge_only_when_visiting, c51_time_departure_regular_intersection,
    c52_time_arrival_ending_point_limit, c54_delivery_time_with_delay,
    IW, σW, pathEnergyLoss, pathTravelTime, Finset.forall_mem_insert,
    Finset.filter_insert, Finset.filter_singleton, Finset.sum_insert,
    Finset.sum_singleton, Finset.sum_empty]

/-- The concrete assignment `σW` is feasible for the linearized variant on
`IW`. -/
theorem IW_lin_feasible : LinFeasible IW σW := by
  norm_num [LinFeasible, VarDomains, NavConstraints, BatteryCommon, TimeCommon,
    c36_visit_intersection_when_origin_of_path, c37_ending_point_cannot_be_origin,
    c38_visit_intersection_when_destination_of_path,
    c39_starting_point_cannot_be_destination, c40_visit_starting_point,
    c41_visit_delivery_point, c24_soc_arrival_lower_bound,
    c24_soc_arrival_upper_bound, c25_soc_departure_charging_station,
    c27_soc_departure_non_charging_station, c42_soc_starting_point,
    c43_soc_arrival_energy_balance_lin, c44_soc_ending_point,
    c45_time_arrival_starting_point, c46_time_arrival_balance_lin,
    c47_time_departure_delivery_point, c48_time_departure_charging_station,
    c49_charging_time_lower_bound, c49_charging_time_upper_bound,
    c50_charge_only_when_visiting, c51_time_departure_regular_intersection,
    c52_time_arrival_ending_point_limit, c54_delivery_time_with_delay,
    cA7_xi_lower_bound, cA7_xi_upper_bound, cA6_soc_minus_xi_lower_bound,
    cA6_soc_minus_xi_upper_bound, cA11_zeta_lower_bound, cA11_zeta_upper_bound,
    cA10_time_minus_zeta_lower_bound, cA10_time_minus_zeta_upper_bound,
    IW, σW, pathEnergyLoss, pathTravelTime, Finset.forall_mem_insert,
    Finset.filter_insert, Finset.filter_singleton, Finset.sum_insert,
    Finset.sum_singleton, Finset.sum_empty]

/-- C3: in every assignment satisfying either variant of the constraint
system, the start node, the end node and every delivery point carry visit
flag 1.  The end node is not forced directly (the model's cn1 is commented
out): its visit flag follows from double-counting the traversed paths by
origin fiber (c36/c37) and by destination fiber (c38/c39). -/
theorem forced_visits (I : RoutingInstance) (σ : RoutingAssignment)
    (hwf : WellFormed I) (h : QuadFeasible I σ ∨ LinFeasible I σ) :
    σ.v01VisitIntersection I.pStartingPoint = 1 ∧
    σ.v01VisitIntersection I.pEndingPoint = 1 ∧
    ∀ d ∈ I.sDeliveryPoints, σ.v01VisitIntersection d = 1 := by
  have hnav : NavConstraints I σ := by
    rcases h with h | h
    · exact h.2.1
    · exact h.2.2.2.1
  obtain ⟨h36, h37, h38, h39, h40, h41⟩ := hnav
  obtain ⟨-, -, hstart, hend, hpaths, -⟩ := hwf
  refine ⟨h40, ?_, h41⟩
  by_cases hse : I.pStartingPoint = I.pEndingPoint
  · rw [← hse]; exact h40
  · have horig : ∀ p ∈ I.sPaths, I.pOriginIntersection p ∈ I.sIntersections :=
      fun p hp => (hpaths p hp).1
    have hdest : ∀ p ∈ I.sPaths, I.pDestinationIntersection p ∈ I.sIntersections :=
      fun p hp => (hpaths p hp).2
    have hsumO := Finset.sum_fiberwise_of_maps_to horig σ.v01TravelPath
    have hsumD := Finset.sum_fiberwise_of_maps_to hdest σ.v01TravelPath
    have hO : ∑ p ∈ I.sPaths, σ.v01TravelPath p
        = ∑ i ∈ I.sIntersections.erase I.pEndingPoint, σ.v01VisitIntersection i := by
      have e1 : (∑ i ∈ I.sIntersections.erase I.pEndingPoint,
            ∑ p ∈ I.sPaths.filter (fun p => I.pOriginIntersection p = i),
              σ.v01TravelPath p) +
            ∑ p ∈ I.sPaths.filter (fun p => I.pOriginIntersection p = I.pEndingPoint),
              σ.v01TravelPath p
          = ∑ i ∈ I.sIntersections,
              ∑ p ∈ I.sPaths.filter (fun p => I.pOriginIntersection p = i),
                σ.v01TravelPath p :=
        Finset.sum_erase_add _ _ hend
      rw [h37, add_zero] at e1
      rw [← hsumO, ← e1]
      exact Finset.sum_congr rfl fun i hi =>
        h36 i (Finset.mem_of_mem_erase hi) (Finset.ne_of_mem_erase hi)
    have hD : ∑ p ∈ I.sPaths, σ.v01TravelPath p
        = ∑ i ∈ I.sIntersections.erase I.pStartingPoint, σ.v01VisitIntersection i := by
      have e2 : (∑ i ∈ I.sIntersections.erase I.pStartingPoint,
            ∑ p ∈ I.sPaths.filter (fun p => I.pDestinationIntersection p = i),
              σ.v01TravelPath p) +
            ∑ p ∈ I.sPaths.filter (fun p => I.pDestinationIntersection p = I.pStartingPoint),
              σ.v01TravelPath p
          = ∑ i ∈ I.sIntersections,
              ∑ p ∈ I.sPaths.filter (fun p => I.pDestinationIntersection p = i),
                σ.v01TravelPath p :=
        Finset.sum_erase_add _ _ hstart
      rw [h39, add_zero] at e2
      rw [← hsumD, ← e2]
      exact Finset.sum_congr rfl fun i hi =>
        h38 i (Finset.mem_of_mem_erase hi) (Finset.ne_of_mem_erase hi)
    have hs_mem : I.pStartingPoint ∈ I.sIntersections.erase I.pEndingPoint :=
      Finset.mem_erase.2 ⟨hse, hstart⟩
    have he_mem : I.pEndingPoint ∈ I.sIntersections.erase I.pStartingPoint :=
      Finset.mem_erase.2 ⟨fun hc => hse hc.symm, hend⟩
    have h1 := Finset.sum_erase_add _ σ.v01VisitIntersection hs_mem
    have h2 := Finset.sum_erase_add _ σ.v01VisitIntersection he_mem
    rw [Finset.erase_right_comm] at h1
    have hkey : σ.v01VisitIntersection I.pStartingPoint
        = σ.v01VisitIntersection I.pEndingPoint := by linarith [hO, hD, h1, h2]
    rw [← hkey]
    exact h40

/-- Closed witness for `forced_visits` at the concrete feasible instance. -/
theorem forced_visits_witness :
    σW.v01VisitIntersection IW.pStartingPoint = 1 ∧
    σW.v01VisitIntersection IW.pEndingPoint = 1 ∧
    ∀ d ∈ IW.sDeliveryPoints, σW.v01VisitIntersection d = 1 :=
  forced_visits IW σW IW_wellformed (Or.inl IW_quad_feasible)

/-- C6: in every feasible assignment (either variant), a station with charge
flag 1 has its charging duration between the station's min and max dwell
times, and a station with charge flag 0 has charging duration 0. -/
theorem charging_time_bounds (I : RoutingInstance) (σ : RoutingAssignment)
    (h : QuadFeasible I σ ∨ LinFeasible I σ) :
    ∀ s ∈ I.sChargingStations,
      (σ.v01Charge s = 1 → I.pMinChargingTime s ≤ σ.vTimeCharging s ∧
        σ.vTimeCharging s ≤ I.pMaxChargingTime s) ∧
      (σ.v01Charge s = 0 → σ.vTimeCharging s = 0) := by
  have hkey : c49_charging_time_lower_bound I σ ∧ c49_charging_time_upper_bound I σ := by
    rcases h with h | h
    · exact ⟨h.2.2.2.2.2.2.1.2.2.2.1, h.2.2.2.2.2.2.1.2.2.2.2.1⟩
    · exact ⟨h.2.2.2.2.2.2.1.2.2.2.1, h.2.2.2.2.2.2.1.2.2.2.2.1⟩
  obtain ⟨h49l, h49u⟩ := hkey
  intro s hs
  constructor
  · intro hc1
    have hl := h49l s hs
    have hu := h49u s hs
    rw [hc1] at hl hu
    constructor <;> linarith
  · intro hc0
    have hl := h49l s hs
    have hu := h49u s hs
    rw [hc0] at hl hu
    have : σ.vTimeCharging s ≤ 0 := by linarith
    have h0 : 0 * I.pMinChargingTime s ≤ σ.vTimeCharging s := hl
    linarith [h0]

/-- Closed witness for `charging_time_bounds` at the concrete feasible
instance. -/
theorem charging_time_bounds_witness :
    IW.pMinChargingTime 2 ≤ σW.vTimeCharging 2 ∧
    σW.vTimeCharging 2 ≤ IW.pMaxChargingTime 2 :=
  (charging_time_bounds IW σW (Or.inl IW_quad_feasible) 2 (by decide)).1 rfl

/-- C10: at an intersection that is both a delivery point and a charging
station, constraints c47 and c48 both determine the departure time, so the
charging duration is forced to equal the delivery duration. -/
theorem delivery_station_duration (I : RoutingInstance) (σ : RoutingAssignment)
    (h : QuadFeasible I σ ∨ LinFeasible I σ) :
    ∀ i ∈ I.sDeliveryPoints ∩ I.sChargingStations,
      σ.vTimeCharging i = I.pTimeMakingDelivery i := by
  have hkey : c47_time_departure_delivery_point I σ ∧
      c48_time_departure_charging_station I σ := by
    rcases h with h | h
    · exact ⟨h.2.2.2.2.2.2.1.2.1, h.2.2.2.2.2.2.1.2.2.1⟩
    · exact ⟨h.2.2.2.2.2.2.1.2.1, h.2.2.2.2.2.2.1.2.2.1⟩
  obtain ⟨h47, h48⟩ := hkey
  intro i hi
  have hmem := Finset.mem_inter.1 hi
  have hd := h47 i hmem.1
  have hc := h48 i hmem.2
  linarith

/-- Closed witness for `delivery_station_duration`: at node 2 of the
concrete instance the charging duration equals the delivery duration 2. -/
theorem delivery_station_duration_witness :
    σW.vTimeCharging 2 = IW.pTimeMakingDelivery 2 :=
  delivery_station_duration IW σW (Or.inl IW_quad_feasible) 2 (by decide)

/-- C7: a vehicle instance whose starting SoC is strictly below the SoC
floor allows no feasible assignment in either variant: c40 forces the start
to be visited, c42 pins its arrival SoC to the starting SoC, and the c24
arrival lower bound demands at least the floor. -/
theorem infeasible_below_soc_floor (I : RoutingInstance) (σ : RoutingAssignment)
    (hwf : WellFormed I) (hlow : I.pStartingSoC < I.pMinSoC) :
    ¬ QuadFeasible I σ ∧ ¬ LinFeasible I σ := by
  obtain ⟨-, -, hstart, -⟩ := hwf
  have core : c40_visit_starting_point I σ → c42_soc_starting_point I σ →
      c24_soc_arrival_lower_bound I σ → False := by
    intro h40 h42 h24
    have hb := h24 I.pStartingPoint hstart
    rw [h42, h40] at hb
    linarith
  constructor
  · intro h
    exact core h.2.1.2.2.2.2.1 h.2.2.1.2.2.2.2.1 h.2.2.1.1
  · intro h
    exact core h.2.2.2.1.2.2.2.2.1 h.2.2.2.2.1.2.2.2.2.1 h.2.2.2.2.1.1


/-- The infeasible concrete instance `I7` is also well-formed. -/
theorem I7_wellformed : WellFormed I7 := by
  norm_num [WellFormed, I7, IW, Finset.forall_mem_insert, Finset.insert_subset_iff]

/-- Closed witness for `infeasible_below_soc_floor` at the concrete
instance `I7` (starting SoC 1, floor 2). -/
theorem infeasible_below_soc_floor_witness :
    ¬ QuadFeasible I7 σW ∧ ¬ LinFeasible I7 σW :=
  infeasible_below_soc_floor I7 σW I7_wellformed (by norm_num [I7, IW])

/-- Two-node instance for the linearized SoC-departure counterexample: like
`IW` but with no delivery point and a large max dwell time, so the vehicle
may overcharge at the terminal station 2, which originates no path. -/
def I4 : RoutingInstance :=
  { IW with sDeliveryPoints := ∅, pMaxChargingTime := fun _ => 100 }

/-- Assignment overcharging at the terminal station of `I4`: it charges for
20 hours, leaving with SoC 24 although the SoC ceiling is 10. -/
def σ4 : RoutingAssignment :=
  { σW with
    vTimeCharging := fun _ => 20
    vSoCDeparture := fun i => if i = 1 then 5 else 24
    vTimeDeparture := fun i => if i = 1 then 0 else 21 }

/-- C4 (amended): in the quadratic variant both `socArrival` and
`socDeparture` lie between `visit·pMinSoC` and `visit·pMaxSoC` at every
intersection.  In the linearized variant (which omits the c24 departure
bounds) `socArrival` satisfies both bounds and `socDeparture` satisfies the
lower bound everywhere, but its upper bound is only recovered (via
cA6/cA7) at intersections that originate at least one path. -/
theorem soc_bounds (I : RoutingInstance) (σ : RoutingAssignment) (hwf : WellFormed I) :
    (QuadFeasible I σ → ∀ i ∈ I.sIntersections,
      σ.v01VisitIntersection i * I.pMinSoC ≤ σ.vSoCArrival i ∧
      σ.vSoCArrival i ≤ σ.v01VisitIntersection i * I.pMaxSoC ∧
      σ.v01VisitIntersection i * I.pMinSoC ≤ σ.vSoCDeparture i ∧
      σ.vSoCDeparture i ≤ σ.v01VisitIntersection i * I.pMaxSoC) ∧
    (LinFeasible I σ → ∀ i ∈ I.sIntersections,
      σ.v01VisitIntersection i * I.pMinSoC ≤ σ.vSoCArrival i ∧
      σ.vSoCArrival i ≤ σ.v01VisitIntersection i * I.pMaxSoC ∧
      σ.v01VisitIntersection i * I.pMinSoC ≤ σ.vSoCDeparture i ∧
      ((∃ p ∈ I.sPaths, I.pOriginIntersection p = i) →
        σ.vSoCDeparture i ≤ σ.v01VisitIntersection i * I.pMaxSoC)) := by
  constructor
  · intro h i hi
    exact ⟨h.2.2.1.1 i hi, h.2.2.1.2.1 i hi, h.2.2.2.1 i hi, h.2.2.2.2.1 i hi⟩
  · intro h i hi
    obtain ⟨hdom, hxi0, hzeta0, hnav, hbat, hc43, htime, hc46, hA7l, hA7u, hA6l, hA6u,
      hA11l, hA11u, hA10l, hA10u⟩ := h
    obtain ⟨h24al, h24au, h25, h27, h42, h44⟩ := hbat
    obtain ⟨hchg, htrv, hvis, hsa, hsd, hta, htd, htc, hdl⟩ := hdom
    obtain ⟨h45, h47, h48, h49l, h49u, h50, h51, h52, h54⟩ := htime
    obtain ⟨-, -, -, -, -, -, -, -, -, -, -, -, -, -, hspar⟩ := hwf
    refine ⟨h24al i hi, h24au i hi, ?_, ?_⟩
    · by_cases hcs : i ∈ I.sChargingStations
      · have hc25 := h25 i hcs
        have hprod : 0 ≤ I.pChargingPower i * σ.vTimeCharging i * I.pChargerEfficiencyRate i :=
          mul_nonneg (mul_nonneg (hspar i hcs).1 (htc i hcs)) (hspar i hcs).2.2.2.2
        have hlo := h24al i hi
        linarith
      · have hc27 := h27 i (Finset.mem_sdiff.2 ⟨hi, hcs⟩)
        have hlo := h24al i hi
        linarith
    · rintro ⟨p, hp, hpi⟩
      have hA6 := hA6u p hp
      have hA7 := hA7u p hp
      rw [hpi] at hA6
      rcases hvis i hi with hv0 | hv1
      · rw [hv0]
        by_cases hcs : i ∈ I.sChargingStations
        · have hc50 := h50 i hcs
          rw [hv0] at hc50
          have hch0 : σ.v01Charge i = 0 := by
            rcases hchg i hcs with h0 | h1
            · exact h0
            · rw [h1] at hc50; linarith
          have h49 := h49u i hcs
          rw [hch0] at h49
          have htc0 := htc i hcs
          have htceq : σ.vTimeCharging i = 0 := by
            have hz : (0:ℚ) * I.pMaxChargingTime i = 0 := by ring
            linarith
          have hc25 := h25 i hcs
          rw [htceq] at hc25
          have harr := h24au i hi
          rw [hv0] at harr
          have hz2 : I.pChargingPower i * 0 * I.pChargerEfficiencyRate i = 0 := by ring
          linarith
        · have hc27 := h27 i (Finset.mem_sdiff.2 ⟨hi, hcs⟩)
          have harr := h24au i hi
          rw [hv0] at harr
          linarith
      · rw [hv1]
        linarith

/-- Closed witness for `soc_bounds`: the quadratic-variant bounds evaluated
at node 2 of the concrete feasible instance. -/
theorem soc_bounds_witness :
    σW.v01VisitIntersection 2 * IW.pMinSoC ≤ σW.vSoCArrival 2 ∧
    σW.vSoCArrival 2 ≤ σW.v01VisitIntersection 2 * IW.pMaxSoC ∧
    σW.v01VisitIntersection 2 * IW.pMinSoC ≤ σW.vSoCDeparture 2 ∧
    σW.vSoCDeparture 2 ≤ σW.v01VisitIntersection 2 * IW.pMaxSoC :=
  (soc_bounds IW σW IW_wellformed).1 IW_quad_feasible 2 (by decide)

/-- C4 counterexample: a linearize-variant feasible assignment on `I4` whose
departure SoC at the visited terminal station 2 exceeds `visit · pMaxSoC`
(24 > 10), so the claimed departure upper bound fails for the linearized
constraint system. -/
theorem soc_bounds_counterexample :
    LinFeasible I4 σ4 ∧ (2 : ℤ) ∈ I4.sIntersections ∧
    ¬ (σ4.vSoCDeparture 2 ≤ σ4.v01VisitIntersection 2 * I4.pMaxSoC) := by
  refine ⟨?_, by decide, by norm_num [σ4, σW, I4, IW]⟩
  norm_num [LinFeasible, VarDomains, NavConstraints, BatteryCommon, TimeCommon,
    c36_visit_intersection_when_origin_of_path, c37_ending_point_cannot_be_origin,
    c38_visit_intersection_when_destination_of_path,
    c39_starting_point_cannot_be_destination, c40_visit_starting_point,
    c41_visit_delivery_point, c24_soc_arrival_lower_bound,
    c24_soc_arrival_upper_bound, c25_soc_departure_charging_station,
    c27_soc_departure_non_charging_station, c42_soc_starting_point,
    c43_soc_arrival_energy_balance_lin, c44_soc_ending_point,
    c45_time_arrival_starting_point, c46_time_arrival_balance_lin,
    c47_time_departure_delivery_point, c48_time_departure_charging_station,
    c49_charging_time_lower_bound, c49_charging_time_upper_bound,
    c50_charge_only_when_visiting, c51_time_departure_regular_intersection,
    c52_time_arrival_ending_point_limit, c54_delivery_time_with_delay,
    cA7_xi_lower_bound, cA7_xi_upper_bound, cA6_soc_minus_xi_lower_bound,
    cA6_soc_minus_xi_upper_bound, cA11_zeta_lower_bound, cA11_zeta_upper_bound,
    cA10_time_minus_zeta_lower_bound, cA10_time_minus_zeta_upper_bound,
    I4, σ4, IW, σW, pathEnergyLoss, pathTravelTime, Finset.forall_mem_insert,
    Finset.filter_insert, Finset.filter_singleton, Finset.sum_insert,
    Finset.sum_singleton, Finset.sum_empty]

/-- Two-node network refuting objective-value equality of the two variants:
path 10 goes 1→2 losing 2 SoC in 1 hour, path 11 goes 2→1 and is never
traversed; node 2 (the end) is a charging station, the time horizon equals
the arrival time at 2, and the return-SoC constraint forces charging there. -/
def I2 : RoutingInstance where
  sIntersections := {1, 2}
  sPaths := {10, 11}
  sDeliveryPoints := ∅
  sChargingStations := {2}
  pAccelerationEfficiency := 1
  pBrakingEfficiency := 0
  pMinSoC := 0
  pMaxSoC := 10
  pStartingSoC := 5
  pStartingTime := 0
  pMaxTime := 1
  pStartingPoint := 1
  pEndingPoint := 2
  pNumIntersections := 2
  pOriginIntersection := fun p => if p = 10 then 1 else 2
  pDestinationIntersection := fun p => if p = 10 then 2 else 1
  pPathLength := fun _ => 1
  pAvgSpeed := fun _ => 1
  pAccelerationBrakingTime := fun _ => 0
  pDistanceAtAvgSpeed := fun _ => 1
  pPowerConsAtAvgSpeed := fun p => if p = 10 then 2 else 0
  pKineticEnergy := fun _ => 0
  pTimeMakingDelivery := fun _ => 0
  pTimeWithoutPenalty := fun _ => 0
  pDelayPenalty := fun _ => 0
  pChargingPower := fun _ => 1
  pChargingPrice := fun _ => 1
  pMaxChargingTime := fun _ => 100
  pMinChargingTime := fun _ => 0
  pChargerEfficiencyRate := fun _ => 1

/-- Quadratic-variant feasible assignment on `I2`: traverse 1→2, charge 2
hours at node 2 to restore the starting SoC, departing node 2 at time 3. -/
def σ2 : RoutingAssignment where
  v01Charge := fun _ => 1
  v01TravelPath := fun p => if p = 10 then 1 else 0
  v01VisitIntersection := fun _ => 1
  vSoCArrival := fun i => if i = 1 then 5 else 3
  vSoCDeparture := fun _ => 5
  vTimeArrival := fun i => if i = 1 then 0 else 1
  vTimeDeparture := fun i => if i = 1 then 0 else 3
  vTimeCharging := fun _ => 2
  vTimeDelay := fun _ => 0
  vXiSoC := fun _ => 0
  vZetaTime := fun _ => 0

/-- The assignment `σ2` satisfies every quadratic-variant constraint of
`I2`. -/
theorem I2_quad_feasible : QuadFeasible I2 σ2 := by
  norm_num [QuadFeasible, VarDomains, NavConstraints, BatteryCommon, TimeCommon,
    c36_visit_intersection_when_origin_of_path, c37_ending_point_cannot_be_origin,
    c38_visit_intersection_when_destination_of_path,
    c39_starting_point_cannot_be_destination, c40_visit_starting_point,
    c41_visit_delivery_point, c24_soc_arrival_lower_bound,
    c24_soc_arrival_upper_bound, c24_soc_departure_lower_bound,
    c24_soc_departure_upper_bound, c25_soc_departure_charging_station,
    c27_soc_departure_non_charging_station, c42_soc_starting_point,
    c43_soc_arrival_energy_balance_quad, c44_soc_ending_point,
    c45_time_arrival_starting_point, c46_time_arrival_balance_quad,
    c47_time_departure_delivery_point, c48_time_departure_charging_station,
    c49_charging_time_lower_bound, c49_charging_time_upper_bound,
    c50_charge_only_when_visiting, c51_time_departure_regular_intersection,
    c52_time_arrival_ending_point_limit, c54_delivery_time_with_delay,
    I2, σ2, pathEnergyLoss, pathTravelTime, Finset.forall_mem_insert,
    Finset.filter_insert, Finset.filter_singleton, Finset.sum_insert,
    Finset.sum_singleton, Finset.sum_empty]

/-- No assignment satisfies the linearized constraint system on `I2`: the
route and SoC chain force a charging duration of at least 2 at node 2, but
the big-M time bounds cA10/cA11 on the untraversed path 11 out of node 2
cap node 2's departure time at `pMaxTime = 1`, below its arrival time plus
the charging duration. -/
theorem I2_lin_infeasible : ∀ τ : RoutingAssignment, ¬ LinFeasible I2 τ := by
  intro τ h
  obtain ⟨hdom, hxi0, hzeta0, hnav, hbat, hc43, htime, hc46, hA7l, hA7u, hA6l, hA6u,
    hA11l, hA11u, hA10l, hA10u⟩ := h
  obtain ⟨h36, h37, h38, h39, h40, h41⟩ := hnav
  obtain ⟨h24al, h24au, h25, h27, h42, h44⟩ := hbat
  obtain ⟨h45, h47, h48, h49l, h49u, h50, h51, h52, h54⟩ := htime
  have hf1 : I2.sPaths.filter (fun p => I2.pOriginIntersection p = 1) = {10} := by decide
  have hf2 : I2.sPaths.filter (fun p => I2.pOriginIntersection p = I2.pEndingPoint) = {11} := by
    decide
  have hf3 : I2.sPaths.filter (fun p => I2.pDestinationIntersection p = 2) = {10} := by decide
  have h36a := h36 1 (by decide) (by decide)
  rw [hf1, Finset.sum_singleton] at h36a
  have h37a : ∑ p ∈ I2.sPaths.filter (fun p => I2.pOriginIntersection p = I2.pEndingPoint),
      τ.v01TravelPath p = 0 := h37
  rw [hf2, Finset.sum_singleton] at h37a
  have h38a := h38 2 (by decide) (by decide)
  rw [hf3, Finset.sum_singleton] at h38a
  have h40a : τ.v01VisitIntersection 1 = 1 := h40
  have h42a : τ.vSoCArrival 1 = τ.v01VisitIntersection 1 * 5 := h42
  have h27a : τ.vSoCDeparture 1 = τ.vSoCArrival 1 := h27 1 (by decide)
  have hA6la : τ.vSoCDeparture 1 - τ.vXiSoC 10 ≥ 0 := hA6l 10 (by decide)
  have hA6ua : τ.vSoCDeparture 1 - τ.vXiSoC 10 ≤ 10 * (1 - τ.v01TravelPath 10) :=
    hA6u 10 (by decide)
  have hc43a := hc43 2 (by decide) (by decide)
  rw [hf3, Finset.sum_singleton] at hc43a
  have hloss : pathEnergyLoss I2 10 = 2 := by norm_num [pathEnergyLoss, I2]
  rw [hloss] at hc43a
  have h25a : τ.vSoCDeparture 2 = τ.vSoCArrival 2 + 1 * τ.vTimeCharging 2 * 1 :=
    h25 2 (by decide)
  have h44a : τ.vSoCDeparture 2 ≥ τ.v01VisitIntersection 2 * 5 := h44
  have h45a : τ.vTimeArrival 1 = τ.v01VisitIntersection 1 * 0 := h45
  have h51a : τ.vTimeDeparture 1 = τ.vTimeArrival 1 := h51 1 (by decide)
  have hA10la : τ.vTimeDeparture 1 - τ.vZetaTime 10 ≥ 0 := hA10l 10 (by decide)
  have hA10ua : τ.vTimeDeparture 1 - τ.vZetaTime 10 ≤ 1 * (1 - τ.v01TravelPath 10) :=
    hA10u 10 (by decide)
  have hc46a := hc46 2 (by decide) (by decide)
  rw [hf3, Finset.sum_singleton] at hc46a
  have htt : pathTravelTime I2 10 = 1 := by norm_num [pathTravelTime, I2]
  rw [htt] at hc46a
  have h48a : τ.vTimeDeparture 2 = τ.vTimeArrival 2 + τ.vTimeCharging 2 := h48 2 (by decide)
  have hA11la : τ.vZetaTime 11 ≥ 0 := hA11l 11 (by decide)
  have hA11ua : τ.vZetaTime 11 ≤ 1 * τ.v01TravelPath 11 := hA11u 11 (by decide)
  have hA10ub : τ.vTimeDeparture 2 - τ.vZetaTime 11 ≤ 1 * (1 - τ.v01TravelPath 11) :=
    hA10u 11 (by decide)
  linarith

/-- C2 counterexample: on the concrete instance `I2` the quadratic
formulation has the feasible assignment `σ2` with objective value 2,
while the linearized formulation has no feasible assignment at all, so
the two formulations cannot have equal optimal objective values there. -/
theorem linearization_objective_counterexample :
    QuadFeasible I2 σ2 ∧ objective I2 σ2 = 2 ∧
    ∀ τ : RoutingAssignment, ¬ LinFeasible I2 τ :=
  ⟨I2_quad_feasible,
    by norm_num [objective, I2, σ2, Finset.sum_singleton, Finset.sum_empty],
    I2_lin_infeasible⟩

/-- C2 (amended): the big-M linearization of the bilinear terms is exact in
the solution-preserving direction: in every linearize-variant feasible
assignment the auxiliary variables equal the bilinear products
`travel·socDeparture(origin)` and `travel·timeDeparture(origin)`, hence the
assignment also satisfies the quadratic SoC- and time-balance constraints
(and the objective, which only reads shared variables, is unchanged). -/
theorem linearization_exactness (I : RoutingInstance) (σ : RoutingAssignment)
    (h : LinFeasible I σ) :
    (∀ p ∈ I.sPaths,
      σ.vXiSoC p = σ.v01TravelPath p * σ.vSoCDeparture (I.pOriginIntersection p) ∧
      σ.vZetaTime p = σ.v01TravelPath p * σ.vTimeDeparture (I.pOriginIntersection p)) ∧
    c43_soc_arrival_energy_balance_quad I σ ∧
    c46_time_arrival_balance_quad I σ := by
  obtain ⟨hdom, hxi0, hzeta0, hnav, hbat, hc43, htime, hc46, hA7l, hA7u, hA6l, hA6u,
    hA11l, hA11u, hA10l, hA10u⟩ := h
  have hprod : ∀ p ∈ I.sPaths,
      σ.vXiSoC p = σ.v01TravelPath p * σ.vSoCDeparture (I.pOriginIntersection p) ∧
      σ.vZetaTime p = σ.v01TravelPath p * σ.vTimeDeparture (I.pOriginIntersection p) := by
    intro p hp
    rcases hdom.2.1 p hp with ht | ht
    · rw [ht, zero_mul, zero_mul]
      have h7u := hA7u p hp
      have h7l := hA7l p hp
      have h11u := hA11u p hp
      have h11l := hA11l p hp
      rw [ht] at h7u h11u
      constructor <;> [skip; skip] <;> nlinarith [h7u, h7l, h11u, h11l]
    · rw [ht, one_mul, one_mul]
      have h6u := hA6u p hp
      have h6l := hA6l p hp
      have h10u := hA10u p hp
      have h10l := hA10l p hp
      rw [ht] at h6u h10u
      constructor <;> [skip; skip] <;> nlinarith [h6u, h6l, h10u, h10l]
  refine ⟨hprod, ?_, ?_⟩
  · intro i hi hne
    have hbal := hc43 i hi hne
    rw [hbal]
    refine Finset.sum_congr rfl fun p hpf => ?_
    have hp := (Finset.mem_filter.1 hpf).1
    rw [(hprod p hp).1]
    ring
  · intro i hi hne
    have hbal := hc46 i hi hne
    rw [hbal]
    refine Finset.sum_congr rfl fun p hpf => ?_
    have hp := (Finset.mem_filter.1 hpf).1
    rw [(hprod p hp).2]
    ring

/-- Closed witness for `linearization_exactness` on the concrete feasible
instance: on path 10, the auxiliary variables equal the bilinear products. -/
theorem linearization_exactness_witness :
    σW.vXiSoC 10 = σW.v01TravelPath 10 * σW.vSoCDeparture (IW.pOriginIntersection 10) ∧
    σW.vZetaTime 10 = σW.v01TravelPath 10 * σW.vTimeDeparture (IW.pOriginIntersection 10) :=
  (linearization_exactness IW σW IW_lin_feasible).1 10 (by decide)

/-- One row of the per-EV `intersections_df` table produced by
`extract_solution_data`: the intersection id and the raw variable values,
`none` standing for a value the solver did not provide (or a variable the
model does not define at that intersection). -/
structure IntersectionRow where
  intersection : ℤ
  v01VisitIntersection : Option ℚ
  vSoCArrival : Option ℚ
  vSoCDeparture : Option ℚ
  vTimeArrival : Option ℚ
  vTimeDeparture : Option ℚ
  v01Charge : Option ℚ
  vTimeCharging : Option ℚ
  vTimeDelay : Option ℚ
deriving DecidableEq

/-- One row of the per-EV `paths_df` table produced by
`extract_solution_data`. -/
structure PathRow where
  pOriginIntersection : ℤ
  pDestinationIntersection : ℤ
  v01TravelPath : Option ℚ
  vXiSoC : Option ℚ
  vZetaTime : Option ℚ
deriving DecidableEq

/-- A solved Pyomo model instance as seen by `extract_solution_data`: the
index sets, the path-endpoint parameters, and for every variable either its
solved value or `none` (the helper `get_var_value` returns `None` when the
value is unavailable).  `hasXiSoC`/`hasZetaTime` mirror the
`hasattr(model_instance, ...)` checks for the linearization variables. -/
structure SolvedModel where
  sIntersections : List ℤ
  sDeliveryPoints : List ℤ
  sChargingStations : List ℤ
  sPaths : List ℤ
  pOriginIntersection : ℤ → ℤ
  pDestinationIntersection : ℤ → ℤ
  v01VisitIntersection : ℤ → Option ℚ
  vSoCArrival : ℤ → Option ℚ
  vSoCDeparture : ℤ → Option ℚ
  vTimeArrival : ℤ → Option ℚ
  vTimeDeparture : ℤ → Option ℚ
  v01Charge : ℤ → Option ℚ
  vTimeCharging : ℤ → Option ℚ
  vTimeDelay : ℤ → Option ℚ
  v01TravelPath : ℤ → Option ℚ
  hasXiSoC : Bool
  hasZetaTime : Bool
  vXiSoC : ℤ → Option ℚ
  vZetaTime : ℤ → Option ℚ

/-- Transcription of `extract_solution_data`
(src/routing_model/save_ev_solution_data.py): one record per intersection of
`sIntersections` and one per path of `sPaths`, with charging-station and
delivery-point fields set to `none` at intersections outside those subsets
and the auxiliary path fields set to `none` when the model lacks them.  No
filtering by any indicator value takes place here. -/
def extract_solution_data (M : SolvedModel) : List IntersectionRow × List PathRow :=
  (M.sIntersections.map fun i =>
    { intersection := i
      v01VisitIntersection := M.v01VisitIntersection i
      vSoCArrival := M.vSoCArrival i
      vSoCDeparture := M.vSoCDeparture i
      vTimeArrival := M.vTimeArrival i
      vTimeDeparture := M.vTimeDeparture i
      v01Charge := if i ∈ M.sChargingStations then M.v01Charge i else none
      vTimeCharging := if i ∈ M.sChargingStations then M.vTimeCharging i else none
      vTimeDelay := if i ∈ M.sDeliveryPoints then M.vTimeDelay i else none },
   M.sPaths.map fun p =>
    { pOriginIntersection := M.pOriginIntersection p
      pDestinationIntersection := M.pDestinationIntersection p
      v01TravelPath := M.v01TravelPath p
      vXiSoC := if M.hasXiSoC then M.vXiSoC p else none
      vZetaTime := if M.hasZetaTime then M.vZetaTime p else none })

/-- The numeric closeness test `abs(value - 1) < eps` used whenever the code
asks whether a binary indicator is set; an unavailable value (`none`,
pandas `NaN`) compares false. -/
def indicatorClose (eps : ℚ) (v : Option ℚ) : Bool :=
  match v with
  | some x => |x - 1| < eps
  | none => false

/-- The visited-intersection restriction applied by `create_solution_map`
(`abs(intersections_df['v01VisitIntersection'] - 1) < eps`). -/
def filterVisitedIntersections (eps : ℚ) (rows : List IntersectionRow) :
    List IntersectionRow :=
  rows.filter fun r => indicatorClose eps r.v01VisitIntersection

/-- The traversed-path restriction applied by `create_solution_map`
(`abs(paths_df['v01TravelPath'] - 1) < eps`). -/
def filterTraversedPaths (eps : ℚ) (rows : List PathRow) : List PathRow :=
  rows.filter fun r => indicatorClose eps r.v01TravelPath

/-- Solved model with an unvisited intersection 2 and an untraversed path
11, refuting the claim that the extractor only emits near-1 indicators. -/
def M8 : SolvedModel where
  sIntersections := [1, 2]
  sDeliveryPoints := []
  sChargingStations := [2]
  sPaths := [10, 11]
  pOriginIntersection := fun p => if p = 10 then 1 else 2
  pDestinationIntersection := fun p => if p = 10 then 2 else 1
  v01VisitIntersection := fun i => if i = 1 then some 1 else some 0
  vSoCArrival := fun _ => some 5
  vSoCDeparture := fun _ => some 5
  vTimeArrival := fun _ => some 0
  vTimeDeparture := fun _ => some 0
  v01Charge := fun _ => some 0
  vTimeCharging := fun _ => some 0
  vTimeDelay := fun _ => none
  v01TravelPath := fun p => if p = 10 then some 1 else some 0
  hasXiSoC := false
  hasZetaTime := false
  vXiSoC := fun _ => none
  vZetaTime := fun _ => none

/-- C8 counterexample: `extract_solution_data` emits a record for the
unvisited intersection 2 (indicator 0) and for the untraversed path 11, so
its output is not restricted to indicators within eps of 1. -/
theorem extractor_not_restricted_counterexample :
    ¬ (∀ r ∈ (extract_solution_data M8).1,
        indicatorClose (1/100000) r.v01VisitIntersection) ∧
    ¬ (∀ r ∈ (extract_solution_data M8).2,
        indicatorClose (1/100000) r.v01TravelPath) := by
  constructor
  · intro h
    have h2 := h ⟨2, some 0, some 5, some 5, some 0, some 0, some 0, some 0, none⟩
      (by norm_num [extract_solution_data, M8])
    norm_num [indicatorClose] at h2
  · intro h
    have h2 := h ⟨2, 1, some 0, none, none⟩
      (by norm_num [extract_solution_data, M8])
    norm_num [indicatorClose] at h2

/-- C8 (amended): the extractor emits exactly one record per intersection
and per path, with the raw indicator values and `none` for unavailable
variables; the restriction to indicators within eps of 1 is applied
downstream (`create_solution_map` and the demand aggregator), and every
record surviving that downstream filter does have its indicator within eps
of 1. -/
theorem extractor_and_filter (M : SolvedModel) (eps : ℚ) :
    (extract_solution_data M).1.length = M.sIntersections.length ∧
    (extract_solution_data M).2.length = M.sPaths.length ∧
    (∀ r ∈ filterVisitedIntersections eps (extract_solution_data M).1,
      ∃ v, r.v01VisitIntersection = some v ∧ |v - 1| < eps) ∧
    (∀ r ∈ filterTraversedPaths eps (extract_solution_data M).2,
      ∃ v, r.v01TravelPath = some v ∧ |v - 1| < eps) := by
  refine ⟨by simp [extract_solution_data], by simp [extract_solution_data], ?_, ?_⟩
  · intro r hr
    have hclose := (List.mem_filter.1 hr).2
    match hv : r.v01VisitIntersection with
    | some v =>
      refine ⟨v, rfl, ?_⟩
      rw [hv] at hclose
      simpa [indicatorClose] using hclose
    | none =>
      rw [hv] at hclose
      simp [indicatorClose] at hclose
  · intro r hr
    have hclose := (List.mem_filter.1 hr).2
    match hv : r.v01TravelPath with
    | some v =>
      refine ⟨v, rfl, ?_⟩
      rw [hv] at hclose
      simpa [indicatorClose] using hclose
    | none =>
      rw [hv] at hclose
      simp [indicatorClose] at hclose

/-- One entry of the `all_ev_results` dictionary consumed by
`extract_aggregated_demand`: an EV id and, when that EV was solved, its
`intersections_df` rows.  A missing `solution_data` entry is `none` and is
skipped by the aggregator. -/
structure EVResult where
  ev : ℤ
  solution : Option (List IntersectionRow)

/-- The part of the scenario map data the aggregator reads: the rows of
`charging_stations_df`, each carrying `pStationIntersection` and
`pChargingPower`. -/
structure ScenarioMapData where
  chargingStationsRows : List (ℤ × ℚ)

/-- The `station_power_map` dictionary: built row by row, a later row with
the same station id overwriting an earlier one. -/
def stationPowerMap (md : ScenarioMapData) : ℤ → Option ℚ :=
  md.chargingStationsRows.foldl
    (fun f row => fun k => if k = row.1 then some row.2 else f k)
    (fun _ => none)

/-- The `all_charging_stations` key list (duplicate ids collapse to a
single dictionary key). -/
def allChargingStations (md : ScenarioMapData) : List ℤ :=
  (md.chargingStationsRows.map Prod.fst).dedup

/-- Keys of the `charging_times` dictionary: (EV id, station id, hour). -/
abbrev ChargingKey : Type := ℤ × ℤ × ℕ

/-- The `charging_times` dictionary, modelled extensionally as a partial
map from keys to stored charging times. -/
abbrev ChargingTimesDict : Type := ChargingKey → Option ℚ

/-- The empty dictionary. -/
def emptyDict : ChargingTimesDict := fun _ => none

/-- Dictionary assignment `d[k] = v`. -/
def dictInsert (k : ChargingKey) (v : ℚ) (d : ChargingTimesDict) : ChargingTimesDict :=
  fun k2 => if k2 = k then some v else d k2

/-- The time-overlap formula
`A(v,i,t) = max(0, min(t+1, t_departure) - max(t, t_arrival))`. -/
def chargeTimeOverlap (t : ℕ) (a b : ℚ) : ℚ :=
  max 0 (min ((t : ℚ) + 1) b - max (t : ℚ) a)

/-- The inner `for t in range(24)` loop, parametrised by the iteration
list: each hour whose overlap strictly exceeds `eps` stores that overlap
under `(ev, station, t)`. -/
def storeLoop (eps : ℚ) (ev station : ℤ) (a b : ℚ) (ts : List ℕ)
    (d : ChargingTimesDict) : ChargingTimesDict :=
  ts.foldl
    (fun d t =>
      if eps < chargeTimeOverlap t a b then
        dictInsert (ev, station, t) (chargeTimeOverlap t a b) d
      else d) d

/-- Processing of one `intersections_df` row of one EV: rows that are
charging stations with charge indicator within `eps` of 1 and available
arrival/departure times run the hour loop; all other rows are skipped. -/
def processRow (sids : List ℤ) (eps : ℚ) (ev : ℤ) (d : ChargingTimesDict)
    (row : IntersectionRow) : ChargingTimesDict :=
  if row.intersection ∈ sids ∧ indicatorClose eps row.v01Charge then
    match row.vTimeArrival, row.vTimeDeparture with
    | some a, some b => storeLoop eps ev row.intersection a b (List.range 24) d
    | _, _ => d
  else d

/-- Processing of all rows of one EV's solution. -/
def processEVRows (sids : List ℤ) (eps : ℚ) (ev : ℤ) (rows : List IntersectionRow)
    (d : ChargingTimesDict) : ChargingTimesDict :=
  rows.foldl (processRow sids eps ev) d

/-- Processing of one entry of `all_ev_results`: EVs without solution data
are skipped. -/
def processResult (sids : List ℤ) (eps : ℚ) (d : ChargingTimesDict)
    (r : EVResult) : ChargingTimesDict :=
  match r.solution with
  | some rows => processEVRows sids eps r.ev rows d
  | none => d

/-- The fully built `charging_times` dictionary of
`extract_aggregated_demand`. -/
def chargingTimes (md : ScenarioMapData) (results : List EVResult) (eps : ℚ) :
    ChargingTimesDict :=
  results.foldl (processResult (allChargingStations md) eps) emptyDict

/-- The aggregated demand reported for one (station, hour) pair:
`station_power * Σ_ev charging_times.get((ev, station, t), 0)`. -/
def aggregatedDemand (md : ScenarioMapData) (results : List EVResult) (eps : ℚ)
    (station : ℤ) (t : ℕ) : ℚ :=
  ((stationPowerMap md station).getD 0) *
    (results.map fun r =>
      ((chargingTimes md results eps) (r.ev, station, t)).getD 0).sum

/-- Sum of the aggregator's output over every reported row: all stations
and all 24 hour buckets. -/
def totalAggregatedDemand (md : ScenarioMapData) (results : List EVResult)
    (eps : ℚ) : ℚ :=
  ((allChargingStations md).map fun s =>
    ((List.range 24).map fun t => aggregatedDemand md results eps s t).sum).sum

/-- The per-hour contribution actually stored by the hour loop: the
overlap when it strictly exceeds `eps`, and 0 otherwise. -/
def thresholdedOverlap (eps : ℚ) (t : ℕ) (a b : ℚ) : ℚ :=
  if eps < chargeTimeOverlap t a b then chargeTimeOverlap t a b else 0

/-- A row that passes the aggregator's station filter for station `s`: its
intersection is `s`, `s` is a known charging station, the charge indicator
is within `eps` of 1, and both times are available. -/
def qualifyingRow (sids : List ℤ) (eps : ℚ) (s : ℤ) (row : IntersectionRow) : Prop :=
  row.intersection = s ∧ row.intersection ∈ sids ∧
    indicatorClose eps row.v01Charge ∧
    row.vTimeArrival.isSome ∧ row.vTimeDeparture.isSome

/-- The hour loop never touches keys of other EVs or other stations. -/
theorem storeLoop_key_ne (eps : ℚ) (ev station : ℤ) (a b : ℚ) (k : ChargingKey)
    (h : k.1 ≠ ev ∨ k.2.1 ≠ station) :
    ∀ (ts : List ℕ) (d : ChargingTimesDict),
      storeLoop eps ev station a b ts d k = d k := by
  intro ts
  induction ts with
  | nil => intro d; rfl
  | cons t2 ts ih =>
    intro d
    have hne : k ≠ ((ev, station, t2) : ChargingKey) := by
      intro hk; subst hk; simp at h
    have hstep : (if eps < chargeTimeOverlap t2 a b then
        dictInsert (ev, station, t2) (chargeTimeOverlap t2 a b) d else d) k = d k := by
      split_ifs
      · simp only [dictInsert, if_neg hne]
      · rfl
    exact (ih _).trans hstep

/-- The hour loop leaves keys of hours outside the iteration list alone. -/
theorem storeLoop_not_mem (eps : ℚ) (ev station : ℤ) (a b : ℚ) (t : ℕ) :
    ∀ (ts : List ℕ) (d : ChargingTimesDict), t ∉ ts →
      storeLoop eps ev station a b ts d (ev, station, t) = d (ev, station, t) := by
  intro ts
  induction ts with
  | nil => intro d _; rfl
  | cons t2 ts ih =>
    intro d h
    have hne : t ≠ t2 := fun hc => h (by rw [hc]; exact List.mem_cons_self t2 ts)
    have h2 : t ∉ ts := fun hc => h (List.mem_cons_of_mem _ hc)
    have hk : ((ev, station, t) : ChargingKey) ≠ (ev, station, t2) := by simp [hne]
    have hstep : (if eps < chargeTimeOverlap t2 a b then
        dictInsert (ev, station, t2) (chargeTimeOverlap t2 a b) d else d) (ev, station, t)
        = d (ev, station, t) := by
      split_ifs
      · simp only [dictInsert, if_neg hk]
      · rfl
    exact (ih _ h2).trans hstep

/-- Value stored by the hour loop at an hour of the iteration list: the
overlap if it beats `eps`, otherwise whatever was there before. -/
theorem storeLoop_mem (eps : ℚ) (ev station : ℤ) (a b : ℚ) (t : ℕ) :
    ∀ (ts : List ℕ) (d : ChargingTimesDict), ts.Nodup → t ∈ ts →
      storeLoop eps ev station a b ts d (ev, station, t) =
        if eps < chargeTimeOverlap t a b then some (chargeTimeOverlap t a b)
        else d (ev, station, t) := by
  intro ts
  induction ts with
  | nil => intro d _ h; simp at h
  | cons t2 ts ih =>
    intro d hnd hmem
    have hhead := (List.nodup_cons.1 hnd).1
    have htail := (List.nodup_cons.1 hnd).2
    rcases List.mem_cons.1 hmem with heq | hmem2
    · subst heq
      have hrest : storeLoop eps ev station a b (t :: ts) d (ev, station, t)
          = (if eps < chargeTimeOverlap t a b then
              dictInsert (ev, station, t) (chargeTimeOverlap t a b) d else d)
              (ev, station, t) :=
        storeLoop_not_mem eps ev station a b t ts _ hhead
      rw [hrest]
      split_ifs
      · simp [dictInsert]
      · rfl
    · have hne : t ≠ t2 := fun hc => hhead (by rw [← hc]; exact hmem2)
      have hk : ((ev, station, t) : ChargingKey) ≠ (ev, station, t2) := by simp [hne]
      have hstep : (if eps < chargeTimeOverlap t2 a b then
          dictInsert (ev, station, t2) (chargeTimeOverlap t2 a b) d else d) (ev, station, t)
          = d (ev, station, t) := by
        split_ifs
        · simp only [dictInsert, if_neg hk]
        · rfl
      rw [show storeLoop eps ev station a b (t2 :: ts) d (ev, station, t)
          = storeLoop eps ev station a b ts _ (ev, station, t) from rfl,
        ih _ htail hmem2]
      split_ifs
      · rfl
      · exact hstep

/-- The hour loop only overrides: its result at any key is its
from-empty result when that is present, and the input dictionary's value
otherwise. -/
theorem storeLoop_or (eps : ℚ) (ev station : ℤ) (a b : ℚ) (k : ChargingKey) :
    ∀ (ts : List ℕ) (d : ChargingTimesDict),
      storeLoop eps ev station a b ts d k =
        (storeLoop eps ev station a b ts emptyDict k).or (d k) := by
  intro ts
  induction ts with
  | nil => intro d; rfl
  | cons t2 ts ih =>
    intro d
    have hstep : ∀ d2 : ChargingTimesDict,
        (if eps < chargeTimeOverlap t2 a b then
          dictInsert (ev, station, t2) (chargeTimeOverlap t2 a b) d2 else d2) k
        = ((if eps < chargeTimeOverlap t2 a b then
            dictInsert (ev, station, t2) (chargeTimeOverlap t2 a b) emptyDict
          else emptyDict) k).or (d2 k) := by
      intro d2
      split_ifs
      · by_cases hk : k = (ev, station, t2)
        · simp [dictInsert, hk]
        · simp [dictInsert, hk, emptyDict]
      · rfl
    have e1 : storeLoop eps ev station a b (t2 :: ts) d k
        = (storeLoop eps ev station a b ts emptyDict k).or
            ((if eps < chargeTimeOverlap t2 a b then
              dictInsert (ev, station, t2) (chargeTimeOverlap t2 a b) d else d) k) := ih _
    have e2 : storeLoop eps ev station a b (t2 :: ts) emptyDict k
        = (storeLoop eps ev station a b ts emptyDict k).or
            ((if eps < chargeTimeOverlap t2 a b then
              dictInsert (ev, station, t2) (chargeTimeOverlap t2 a b) emptyDict
            else emptyDict) k) := ih _
    rw [e1, e2, hstep d, Option.or_assoc]

/-- Row processing never touches keys of other EVs or other stations. -/
theorem processRow_key_ne (sids : List ℤ) (eps : ℚ) (ev : ℤ) (d : ChargingTimesDict)
    (row : IntersectionRow) (k : ChargingKey)
    (h : k.1 ≠ ev ∨ k.2.1 ≠ row.intersection) :
    processRow sids eps ev d row k = d k := by
  unfold processRow
  split_ifs with hc
  · rcases hA : row.vTimeArrival with _ | a
    · rfl
    · rcases hB : row.vTimeDeparture with _ | b
      · rfl
      · exact storeLoop_key_ne eps ev row.intersection a b k h (List.range 24) d
  · rfl

/-- A row that does not qualify for its own station leaves the dictionary
unchanged. -/
theorem processRow_not_qual (sids : List ℤ) (eps : ℚ) (ev : ℤ) (d : ChargingTimesDict)
    (row : IntersectionRow) (h : ¬ qualifyingRow sids eps row.intersection row) :
    processRow sids eps ev d row = d := by
  unfold processRow
  split_ifs with hc
  · rcases hA : row.vTimeArrival with _ | a
    · rfl
    · rcases hB : row.vTimeDeparture with _ | b
      · rfl
      · exact absurd ⟨rfl, hc.1, hc.2, by rw [hA]; rfl, by rw [hB]; rfl⟩ h
  · rfl

/-- A qualifying row runs the hour loop on its times. -/
theorem processRow_qual (sids : List ℤ) (eps : ℚ) (ev : ℤ) (d : ChargingTimesDict)
    (row : IntersectionRow) (s : ℤ) (a b : ℚ) (hq : qualifyingRow sids eps s row)
    (ha : row.vTimeArrival = some a) (hb : row.vTimeDeparture = some b) :
    processRow sids eps ev d row = storeLoop eps ev s a b (List.range 24) d := by
  obtain ⟨hs, hmem, hch, -, -⟩ := hq
  unfold processRow
  rw [if_pos ⟨hmem, hch⟩, ha, hb, ← hs]

/-- Row processing only overrides the incoming dictionary. -/
theorem processRow_or (sids : List ℤ) (eps : ℚ) (ev : ℤ) (d : ChargingTimesDict)
    (row : IntersectionRow) (k : ChargingKey) :
    processRow sids eps ev d row k =
      (processRow sids eps ev emptyDict row k).or (d k) := by
  unfold processRow
  split_ifs with hc
  · rcases hA : row.vTimeArrival with _ | a
    · rfl
    · rcases hB : row.vTimeDeparture with _ | b
      · rfl
      · exact storeLoop_or eps ev row.intersection a b k (List.range 24) d
  · rfl

/-- Processing one EV's rows never touches another EV's keys. -/
theorem processEVRows_key_ne (sids : List ℤ) (eps : ℚ) (ev : ℤ) (k : ChargingKey)
    (h : k.1 ≠ ev) :
    ∀ (rows : List IntersectionRow) (d : ChargingTimesDict),
      processEVRows sids eps ev rows d k = d k := by
  intro rows
  induction rows with
  | nil => intro d; rfl
  | cons row rows ih =>
    intro d
    exact (ih _).trans (processRow_key_ne sids eps ev d row k (Or.inl h))

/-- If none of an EV's rows qualifies for station `s`, the EV stores
nothing under `(ev, s, t)`. -/
theorem processEVRows_no_qual (sids : List ℤ) (eps : ℚ) (ev : ℤ) (s : ℤ) (t : ℕ) :
    ∀ (rows : List IntersectionRow) (d : ChargingTimesDict),
      (∀ row ∈ rows, ¬ qualifyingRow sids eps s row) →
      processEVRows sids eps ev rows d (ev, s, t) = d (ev, s, t) := by
  intro rows
  induction rows with
  | nil => intro d _; rfl
  | cons row rows ih =>
    intro d h
    have hstep : processRow sids eps ev d row (ev, s, t) = d (ev, s, t) := by
      by_cases hs : row.intersection = s
      · refine congrFun (processRow_not_qual sids eps ev d row ?_) _
        rw [hs]
        exact h row (List.mem_cons_self _ _)
      · exact processRow_key_ne sids eps ev d row _ (Or.inr fun hc => hs hc.symm)
    exact (ih _ fun r hr => h r (List.mem_cons_of_mem _ hr)).trans hstep

/-- Processing one EV's rows only overrides the incoming dictionary. -/
theorem processEVRows_or (sids : List ℤ) (eps : ℚ) (ev : ℤ) (k : ChargingKey) :
    ∀ (rows : List IntersectionRow) (d : ChargingTimesDict),
      processEVRows sids eps ev rows d k =
        (processEVRows sids eps ev rows emptyDict k).or (d k) := by
  intro rows
  induction rows with
  | nil => intro d; rfl
  | cons row rows ih =>
    intro d
    calc processEVRows sids eps ev (row :: rows) d k
        = (processEVRows sids eps ev rows emptyDict k).or
            (processRow sids eps ev d row k) := ih _
      _ = (processEVRows sids eps ev rows emptyDict k).or
            ((processRow sids eps ev emptyDict row k).or (d k)) := by
            rw [processRow_or]
      _ = ((processEVRows sids eps ev rows emptyDict k).or
            (processRow sids eps ev emptyDict row k)).or (d k) := by
            rw [Option.or_assoc]
      _ = (processEVRows sids eps ev (row :: rows) emptyDict k).or (d k) := by
            rw [show processEVRows sids eps ev (row :: rows) emptyDict k
                = (processEVRows sids eps ev rows emptyDict k).or
                    (processRow sids eps ev emptyDict row k) from
              ih (processRow sids eps ev emptyDict row)]

/-- Value stored under `(ev, s, t)` when exactly one row qualifies for
station `s`, with arrival `a` and departure `b`. -/
theorem processEVRows_unique (sids : List ℤ) (eps : ℚ) (ev : ℤ) (s : ℤ) (t : ℕ)
    (l1 l2 : List IntersectionRow) (row : IntersectionRow) (a b : ℚ)
    (hq : qualifyingRow sids eps s row)
    (ha : row.vTimeArrival = some a) (hb : row.vTimeDeparture = some b)
    (h1 : ∀ x ∈ l1, ¬ qualifyingRow sids eps s x)
    (h2 : ∀ x ∈ l2, ¬ qualifyingRow sids eps s x)
    (ht : t < 24) (d : ChargingTimesDict) :
    processEVRows sids eps ev (l1 ++ row :: l2) d (ev, s, t) =
      if eps < chargeTimeOverlap t a b then some (chargeTimeOverlap t a b)
      else d (ev, s, t) := by
  have hl1 : processEVRows sids eps ev l1 d (ev, s, t) = d (ev, s, t) :=
    processEVRows_no_qual sids eps ev s t l1 d h1
  have hmid := processRow_qual sids eps ev (processEVRows sids eps ev l1 d) row s a b hq ha hb
  have happ : processEVRows sids eps ev (l1 ++ row :: l2) d
      = processEVRows sids eps ev l2
          (processRow sids eps ev (processEVRows sids eps ev l1 d) row) := by
    unfold processEVRows
    rw [List.foldl_append]
    rfl
  have hl2 := processEVRows_no_qual sids eps ev s t l2
    (processRow sids eps ev (processEVRows sids eps ev l1 d) row) h2
  rw [happ, hl2, hmid,
    storeLoop_mem eps ev s a b t (List.range 24) _ (List.nodup_range 24) (List.mem_range.2 ht),
    hl1]

/-- The dictionary entries one EV contributes, in isolation. -/
def evContribution (sids : List ℤ) (eps : ℚ) (r : EVResult) : ChargingTimesDict :=
  processResult sids eps emptyDict r

/-- EV record that stores nothing for station `s`: either it has no
solution data, or none of its rows qualifies for `s`. -/
def NoChargeRecord (sids : List ℤ) (eps : ℚ) (s : ℤ) (r : EVResult) : Prop :=
  r.solution = none ∨
    ∃ rows, r.solution = some rows ∧ ∀ row ∈ rows, ¬ qualifyingRow sids eps s row

/-- EV record with exactly one row qualifying for station `s`, carrying
arrival time `a` and departure time `b`. -/
def UniqueChargeRecord (sids : List ℤ) (eps : ℚ) (s : ℤ) (a b : ℚ) (r : EVResult) : Prop :=
  ∃ l1 row l2, r.solution = some (l1 ++ row :: l2) ∧
    qualifyingRow sids eps s row ∧
    row.vTimeArrival = some a ∧ row.vTimeDeparture = some b ∧
    (∀ x ∈ l1, ¬ qualifyingRow sids eps s x) ∧
    (∀ x ∈ l2, ¬ qualifyingRow sids eps s x)

/-- A no-charge EV contributes nothing at `(ev, s, t)`. -/
theorem evContribution_no_charge (sids : List ℤ) (eps : ℚ) (s : ℤ) (r : EVResult)
    (h : NoChargeRecord sids eps s r) (t : ℕ) :
    evContribution sids eps r (r.ev, s, t) = none := by
  rcases h with h | ⟨rows, hsol, hnq⟩
  · unfold evContribution processResult
    rw [h]
    rfl
  · unfold evContribution processResult
    rw [hsol]
    exact processEVRows_no_qual sids eps r.ev s t rows emptyDict hnq

/-- A uniquely-charging EV contributes exactly the thresholded overlap at
`(ev, s, t)`. -/
theorem evContribution_unique (sids : List ℤ) (eps : ℚ) (s : ℤ) (a b : ℚ) (r : EVResult)
    (h : UniqueChargeRecord sids eps s a b r) (t : ℕ) (ht : t < 24) :
    evContribution sids eps r (r.ev, s, t) =
      if eps < chargeTimeOverlap t a b then some (chargeTimeOverlap t a b) else none := by
  obtain ⟨l1, row, l2, hsol, hq, ha, hb, h1, h2⟩ := h
  unfold evContribution processResult
  rw [hsol]
  exact processEVRows_unique sids eps r.ev s t l1 l2 row a b hq ha hb h1 h2 ht emptyDict

/-- Result processing only overrides the incoming dictionary. -/
theorem processResult_or (sids : List ℤ) (eps : ℚ) (d : ChargingTimesDict)
    (x : EVResult) (k : ChargingKey) :
    processResult sids eps d x k = (processResult sids eps emptyDict x k).or (d k) := by
  unfold processResult
  rcases hsol : x.solution with _ | rows
  · rfl
  · exact processEVRows_or sids eps x.ev k rows d

/-- Folding over EVs whose ids all differ from the key's EV leaves the
dictionary unchanged at that key. -/
theorem foldl_processResult_ne (sids : List ℤ) (eps : ℚ) (k : ChargingKey) :
    ∀ (results : List EVResult) (d : ChargingTimesDict),
      (∀ r ∈ results, r.ev ≠ k.1) →
      results.foldl (processResult sids eps) d k = d k := by
  intro results
  induction results with
  | nil => intro d _; rfl
  | cons x xs ih =>
    intro d h
    have hstep : processResult sids eps d x k = d k := by
      unfold processResult
      rcases hsol : x.solution with _ | rows
      · rfl
      · exact processEVRows_key_ne sids eps x.ev k
          (Ne.symm (h x (List.mem_cons_self _ _))) rows d
    exact (ih _ fun r hr => h r (List.mem_cons_of_mem _ hr)).trans hstep

/-- Lookup of a key of EV `r` in the dictionary built over a whole list of
EVs with pairwise distinct ids, relative to an arbitrary start dictionary:
the EV's own contribution, overriding whatever was there. -/
theorem foldl_processResult_lookup (sids : List ℤ) (eps : ℚ) (s : ℤ) (t : ℕ) :
    ∀ (results : List EVResult) (d : ChargingTimesDict) (r : EVResult),
      (results.map EVResult.ev).Nodup → r ∈ results →
      results.foldl (processResult sids eps) d (r.ev, s, t) =
        (evContribution sids eps r (r.ev, s, t)).or (d (r.ev, s, t)) := by
  intro results
  induction results with
  | nil => intro d r _ hr; simp at hr
  | cons x xs ih =>
    intro d r hnd hr
    have hx : x.ev ∉ xs.map EVResult.ev := (List.nodup_cons.1 hnd).1
    have hnd2 : (xs.map EVResult.ev).Nodup := (List.nodup_cons.1 hnd).2
    rcases List.mem_cons.1 hr with heq | hmem
    · subst heq
      have hne2 : ∀ r2 ∈ xs, r2.ev ≠ r.ev := by
        intro r2 hr2 hc
        exact hx (hc ▸ List.mem_map_of_mem EVResult.ev hr2)
      calc (r :: xs).foldl (processResult sids eps) d (r.ev, s, t)
          = processResult sids eps d r (r.ev, s, t) :=
            foldl_processResult_ne sids eps (r.ev, s, t) xs _ hne2
        _ = (evContribution sids eps r (r.ev, s, t)).or (d (r.ev, s, t)) :=
            processResult_or sids eps d r (r.ev, s, t)
    · have hne : x.ev ≠ r.ev := by
        intro hc
        exact hx (hc ▸ List.mem_map_of_mem EVResult.ev hmem)
      have hd1 : processResult sids eps d x (r.ev, s, t) = d (r.ev, s, t) := by
        unfold processResult
        rcases hsol : x.solution with _ | rows
        · rfl
        · exact processEVRows_key_ne sids eps x.ev (r.ev, s, t)
            (fun hc => hne hc.symm) rows d
      calc (x :: xs).foldl (processResult sids eps) d (r.ev, s, t)
          = (evContribution sids eps r (r.ev, s, t)).or
              (processResult sids eps d x (r.ev, s, t)) := ih _ r hnd2 hmem
        _ = (evContribution sids eps r (r.ev, s, t)).or (d (r.ev, s, t)) := by rw [hd1]

/-- Lookup of `(r.ev, s, t)` in the full `charging_times` dictionary: with
pairwise distinct EV ids it is exactly `r`'s own contribution. -/
theorem chargingTimes_lookup (md : ScenarioMapData) (results : List EVResult) (eps : ℚ)
    (r : EVResult) (s : ℤ) (t : ℕ)
    (hnd : (results.map EVResult.ev).Nodup) (hr : r ∈ results) :
    chargingTimes md results eps (r.ev, s, t) =
      evContribution (allChargingStations md) eps r (r.ev, s, t) := by
  unfold chargingTimes
  rw [foldl_processResult_lookup (allChargingStations md) eps s t results emptyDict r hnd hr]
  exact Option.or_none

/-- A charging interval of zero length overlaps no hour bucket. -/
theorem overlap_self_eq_zero (t : ℕ) (x : ℚ) : chargeTimeOverlap t x x = 0 := by
  unfold chargeTimeOverlap
  have h1 : min ((t : ℚ) + 1) x ≤ x := min_le_right _ _
  have h2 : x ≤ max (t : ℚ) x := le_max_right _ _
  exact max_eq_left (by linarith)

/-- C9: the Demand Aggregator is order-independent: permuting the EV list
(with its pairwise distinct EV ids, as in the Python dictionary input)
leaves every reported (station, hour) demand value unchanged. -/
theorem aggregator_order_invariant (md : ScenarioMapData) (results results2 : List EVResult)
    (eps : ℚ) (hperm : results.Perm results2)
    (hnd : (results.map EVResult.ev).Nodup) (s : ℤ) (t : ℕ) :
    aggregatedDemand md results eps s t = aggregatedDemand md results2 eps s t := by
  have hnd2 : (results2.map EVResult.ev).Nodup := ((hperm.map EVResult.ev).nodup_iff).1 hnd
  unfold aggregatedDemand
  congr 1
  have h1 : results.map (fun r => ((chargingTimes md results eps) (r.ev, s, t)).getD 0)
      = results.map
          (fun r => ((evContribution (allChargingStations md) eps r) (r.ev, s, t)).getD 0) :=
    List.map_congr_left fun r hr => by
      rw [chargingTimes_lookup md results eps r s t hnd hr]
  have h2 : results2.map (fun r => ((chargingTimes md results2 eps) (r.ev, s, t)).getD 0)
      = results2.map
          (fun r => ((evContribution (allChargingStations md) eps r) (r.ev, s, t)).getD 0) :=
    List.map_congr_left fun r hr => by
      rw [chargingTimes_lookup md results2 eps r s t hnd2 hr]
  rw [h1, h2]
  exact (hperm.map _).sum_eq

/-- Map data with the single charging station 7 of power 50, for the spec's
worked aggregation example. -/
def mdEx : ScenarioMapData := ⟨[(7, 50)]⟩

/-- Solution row of a vehicle charging at station 7 from hour 1.5 to hour
3.25. -/
def rowEx : IntersectionRow :=
  ⟨7, some 1, some 5, some 8, some (3/2), some (13/4), some 1, some (7/4), none⟩

/-- Single-vehicle scenario charging 1.5→3.25 at station 7. -/
def resEx : List EVResult := [⟨1, some [rowEx]⟩]

/-- Two-vehicle scenario: the charging vehicle plus an unsolved vehicle. -/
def resEx2 : List EVResult := [⟨1, some [rowEx]⟩, ⟨2, none⟩]

/-- The same two-vehicle scenario processed in the opposite order. -/
def resEx2Swap : List EVResult := [⟨2, none⟩, ⟨1, some [rowEx]⟩]

/-- Closed witness for `aggregator_order_invariant`: swapping the two EVs
leaves the demand at (station 7, hour 1) unchanged. -/
theorem aggregator_order_invariant_witness :
    aggregatedDemand mdEx resEx2 (1/100000) 7 1 =
      aggregatedDemand mdEx resEx2Swap (1/100000) 7 1 :=
  aggregator_order_invariant mdEx resEx2 resEx2Swap (1/100000)
    (List.Perm.swap _ _ _) (by decide) 7 1

/-- C1 (amended): when every EV either has exactly one qualifying row for
station `s` (arrival `a r`, departure `b r`) or no qualifying row at all
(taken with an empty interval `a r = b r`), the reported demand at
(station `s`, hour `t`) is the station power times the sum over vehicles of
the overlaps that strictly exceed `eps` (smaller overlaps are dropped by
the `charging_time > eps` guard). -/
theorem aggregated_demand_station_formula (md : ScenarioMapData) (results : List EVResult)
    (eps P : ℚ) (s : ℤ) (t : ℕ) (a b : EVResult → ℚ)
    (hP : stationPowerMap md s = some P)
    (hnd : (results.map EVResult.ev).Nodup)
    (hspec : ∀ r ∈ results,
      UniqueChargeRecord (allChargingStations md) eps s (a r) (b r) r ∨
      (NoChargeRecord (allChargingStations md) eps s r ∧ a r = b r))
    (ht : t < 24) :
    aggregatedDemand md results eps s t =
      P * (results.map fun r => thresholdedOverlap eps t (a r) (b r)).sum := by
  unfold aggregatedDemand
  rw [hP]
  have hmap : results.map (fun r => ((chargingTimes md results eps) (r.ev, s, t)).getD 0)
      = results.map (fun r => thresholdedOverlap eps t (a r) (b r)) :=
    List.map_congr_left fun r hr => by
      rw [chargingTimes_lookup md results eps r s t hnd hr]
      rcases hspec r hr with hu | ⟨hn, hab⟩
      · rw [evContribution_unique (allChargingStations md) eps s (a r) (b r) r hu t ht]
        unfold thresholdedOverlap
        split_ifs <;> rfl
      · rw [evContribution_no_charge (allChargingStations md) eps s r hn t]
        unfold thresholdedOverlap
        rw [hab, overlap_self_eq_zero t (b r)]
        split_ifs <;> rfl
  rw [hmap]
  rfl

/-- Closed witness for `aggregated_demand_station_formula`: the spec's
worked example, a single vehicle charging 1.5→3.25 at a station of power
50, yields demand 25 at hour 1, 50 at hour 2, 12.5 at hour 3 and 0 at
hour 0. -/
theorem aggregated_demand_station_formula_witness :
    aggregatedDemand mdEx resEx (1/100000) 7 1 = 25 ∧
    aggregatedDemand mdEx resEx (1/100000) 7 2 = 50 ∧
    aggregatedDemand mdEx resEx (1/100000) 7 3 = 25/2 ∧
    aggregatedDemand mdEx resEx (1/100000) 7 0 = 0 := by
  have hP : stationPowerMap mdEx 7 = some 50 := by
    norm_num [stationPowerMap, mdEx]
  have hnd : (resEx.map EVResult.ev).Nodup := by decide
  have hspec : ∀ r ∈ resEx,
      UniqueChargeRecord (allChargingStations mdEx) (1/100000) 7
        ((fun _ => (3:ℚ)/2) r) ((fun _ => (13:ℚ)/4) r) r ∨
      (NoChargeRecord (allChargingStations mdEx) (1/100000) 7 r ∧
        (fun _ => (3:ℚ)/2) r = (fun _ => (13:ℚ)/4) r) := by
    intro r hr
    left
    have heq : r = ⟨1, some [rowEx]⟩ := by simpa [resEx] using hr
    subst heq
    exact ⟨[], rowEx, [], rfl,
      ⟨rfl, by decide, by norm_num [indicatorClose, rowEx], rfl, rfl⟩,
      rfl, rfl, by simp, by simp⟩
  refine ⟨?_, ?_, ?_, ?_⟩ <;>
  · rw [aggregated_demand_station_formula mdEx resEx (1/100000) 50 7 _
      (fun _ => (3:ℚ)/2) (fun _ => (13:ℚ)/4) hP hnd hspec (by norm_num)]
    norm_num [resEx, thresholdedOverlap, chargeTimeOverlap, min_def, max_def]

/-- Map data with the single charging station 7 of power 1 for the
counterexample. -/
def mdC1 : ScenarioMapData := ⟨[(7, 1)]⟩

/-- Solution row charging at station 7 from hour 1 to hour 1 + 1/200000: a
positive overlap smaller than the default eps = 1/100000. -/
def rowC1 : IntersectionRow :=
  ⟨7, some 1, some 5, some 5, some 1, some (200001/200000), some 1, some (1/200000), none⟩

/-- The tiny-overlap single-vehicle scenario. -/
def evC1 : EVResult := ⟨1, some [rowC1]⟩

/-- Result list of the tiny-overlap scenario. -/
def resC1 : List EVResult := [evC1]

/-- C1 counterexample: for a vehicle charging from hour 1 to hour
1 + 1/200000 at a station of power 1, the overlap sum in bucket 1 is
1/200000, so the claimed formula predicts demand 1/200000, but the
aggregator drops overlaps not exceeding eps = 1/100000 and reports 0. -/
theorem aggregated_demand_counterexample :
    aggregatedDemand mdC1 resC1 (1/100000) 7 1 = 0 ∧
    ((stationPowerMap mdC1 7).getD 0) *
      (resC1.map fun _ => chargeTimeOverlap 1 1 (200001/200000)).sum = 1/200000 ∧
    (0 : ℚ) ≠ 1/200000 := by
  refine ⟨?_, ?_, by norm_num⟩
  · have hnd : (resC1.map EVResult.ev).Nodup := by decide
    have hu : UniqueChargeRecord (allChargingStations mdC1) (1/100000) 7 1
        (200001/200000) evC1 :=
      ⟨[], rowC1, [], rfl, ⟨rfl, by decide, by norm_num [indicatorClose, rowC1], rfl, rfl⟩,
        rfl, rfl, by simp, by simp⟩
    have hlook : chargingTimes mdC1 resC1 (1/100000) (evC1.ev, 7, 1) =
        evContribution (allChargingStations mdC1) (1/100000) evC1 (evC1.ev, 7, 1) :=
      chargingTimes_lookup mdC1 resC1 (1/100000) evC1 7 1 hnd (List.mem_cons_self _ _)
    have hev := evContribution_unique (allChargingStations mdC1) (1/100000) 7 1
      (200001/200000) evC1 hu 1 (by norm_num)
    have hovlt : ¬ ((1:ℚ)/100000 < chargeTimeOverlap 1 1 (200001/200000)) := by
      norm_num [chargeTimeOverlap, min_def, max_def]
    have hnone : chargingTimes mdC1 resC1 (1/100000) (evC1.ev, 7, 1) = none := by
      rw [hlook, hev, if_neg hovlt]
    unfold aggregatedDemand
    rw [show resC1.map (fun r => ((chargingTimes mdC1 resC1 (1/100000)) (r.ev, 7, 1)).getD 0)
        = [((chargingTimes mdC1 resC1 (1/100000)) (evC1.ev, 7, 1)).getD 0] from rfl]
    rw [hnone]
    simp
  · norm_num [stationPowerMap, mdC1, resC1, chargeTimeOverlap, min_def, max_def]

/-- Clamping of a time point into the charging interval `[a, b]`. -/
def clampToInterval (a b x : ℚ) : ℚ := max a (min b x)

/-- The bucket-overlap expression telescopes through the clamp function. -/
theorem overlap_clamp (a b x : ℚ) (hab : a ≤ b) :
    max 0 (min (x + 1) b - max x a) =
      clampToInterval a b (x + 1) - clampToInterval a b x := by
  unfold clampToInterval
  simp only [max_def, min_def]
  split_ifs <;> linarith

/-- Sums over `List.range` agree with `Finset.range` sums. -/
theorem list_range_map_sum (n : ℕ) (f : ℕ → ℚ) :
    ((List.range n).map f).sum = ∑ t ∈ Finset.range n, f t := by
  induction n with
  | zero => simp
  | succ n ih =>
    rw [List.range_succ, List.map_append, List.sum_append, Finset.sum_range_succ, ih]
    simp

/-- For a charging interval within `[0, 24]`, the 24 bucket overlaps sum to
the interval length. -/
theorem sum_range24_overlap (a b : ℚ) (h0 : 0 ≤ a) (hab : a ≤ b) (h24 : b ≤ 24) :
    ((List.range 24).map fun t => chargeTimeOverlap t a b).sum = b - a := by
  rw [list_range_map_sum]
  have hpt : ∀ t ∈ Finset.range 24, chargeTimeOverlap t a b
      = clampToInterval a b (((t + 1 : ℕ)) : ℚ) - clampToInterval a b ((t : ℚ)) := by
    intro t _
    have hx := overlap_clamp a b ((t : ℚ)) hab
    unfold chargeTimeOverlap
    rw [hx]
    norm_cast
  rw [Finset.sum_congr rfl hpt]
  have hsub : ∑ t ∈ Finset.range 24,
      (clampToInterval a b (((t + 1 : ℕ)) : ℚ) - clampToInterval a b ((t : ℚ))) =
      clampToInterval a b (((24 : ℕ)) : ℚ) - clampToInterval a b (((0 : ℕ)) : ℚ) :=
    Finset.sum_range_sub (fun n : ℕ => clampToInterval a b ((n : ℚ))) 24
  rw [hsub]
  have h1 : clampToInterval a b (((24 : ℕ)) : ℚ) = b := by
    unfold clampToInterval
    rw [min_eq_left (by exact_mod_cast h24), max_eq_right hab]
  have h2 : clampToInterval a b (((0 : ℕ)) : ℚ) = a := by
    unfold clampToInterval
    rw [show (((0 : ℕ)) : ℚ) = 0 from by norm_cast,
      min_eq_right (h0.trans hab), max_eq_left h0]
  rw [h1, h2]

/-- The `station_power_map` fold leaves keys not named by any row alone. -/
theorem foldl_power_ne (k : ℤ) :
    ∀ (rows : List (ℤ × ℚ)) (f : ℤ → Option ℚ), k ∉ rows.map Prod.fst →
      rows.foldl (fun f row => fun k2 => if k2 = row.1 then some row.2 else f k2) f k
        = f k := by
  intro rows
  induction rows with
  | nil => intro f _; rfl
  | cons x xs ih =>
    intro f h
    have h1 : k ∉ xs.map Prod.fst := fun hc => h (List.mem_cons_of_mem _ hc)
    have h2 : k ≠ x.1 := fun hc => h (by rw [hc]; exact List.mem_cons_self _ _)
    exact (ih _ h1).trans (if_neg h2)

/-- With pairwise distinct station ids, the `station_power_map` fold maps
each row's station to that row's power. -/
theorem foldl_power_lookup :
    ∀ (rows : List (ℤ × ℚ)) (f : ℤ → Option ℚ) (sp : ℤ × ℚ),
      (rows.map Prod.fst).Nodup → sp ∈ rows →
      rows.foldl (fun f row => fun k2 => if k2 = row.1 then some row.2 else f k2) f sp.1
        = some sp.2 := by
  intro rows
  induction rows with
  | nil => intro f sp _ h; simp at h
  | cons x xs ih =>
    intro f sp hnd hmem
    have hx : x.1 ∉ xs.map Prod.fst := (List.nodup_cons.1 hnd).1
    rcases List.mem_cons.1 hmem with heq | hmem2
    · subst heq
      refine (foldl_power_ne sp.1 xs _ hx).trans ?_
      simp
    · exact ih _ sp (List.nodup_cons.1 hnd).2 hmem2

/-- With pairwise distinct station ids, `stationPowerMap` returns each
row's power. -/
theorem stationPowerMap_lookup (md : ScenarioMapData)
    (hnd : (md.chargingStationsRows.map Prod.fst).Nodup) :
    ∀ sp ∈ md.chargingStationsRows, stationPowerMap md sp.1 = some sp.2 := by
  intro sp hsp
  exact foldl_power_lookup md.chargingStationsRows (fun _ => none) sp hnd hsp

/-- Sums of mapped pointwise additions split. -/
theorem list_sum_map_add {α : Type} (l : List α) (f g : α → ℚ) :
    (l.map fun x => f x + g x).sum = (l.map f).sum + (l.map g).sum := by
  induction l with
  | nil => simp
  | cons x xs ih =>
    simp only [List.map_cons, List.sum_cons, ih]
    ring

/-- A mapped constant-zero sum vanishes. -/
theorem list_sum_map_zero {α : Type} (l : List α) :
    (l.map fun _ => (0 : ℚ)).sum = 0 := by
  induction l with
  | nil => rfl
  | cons x xs ih => simp [ih]

/-- Nested list sums commute. -/
theorem list_sum_map_comm {α β : Type} (l1 : List α) (l2 : List β) (f : α → β → ℚ) :
    (l1.map fun x => (l2.map fun y => f x y).sum).sum =
    (l2.map fun y => (l1.map fun x => f x y).sum).sum := by
  induction l1 with
  | nil => simp [list_sum_map_zero]
  | cons x xs ih =>
    simp only [List.map_cons, List.sum_cons, ih]
    rw [← list_sum_map_add]

/-- C5 (amended): when every EV charges at each station either through
exactly one qualifying row whose interval lies within hours [0, 24] and
whose per-bucket overlaps are each zero or strictly above `eps` (with
`dur r s` the interval length `b − a`), or not at all (`dur r s = 0`), the
aggregator's output summed over all stations and all 24 hour buckets
equals `Σ_r Σ_s power[s] · dur r s`. -/
theorem total_demand_equals_energy (md : ScenarioMapData) (results : List EVResult)
    (eps : ℚ) (a b dur : EVResult → ℤ → ℚ)
    (hndS : (md.chargingStationsRows.map Prod.fst).Nodup)
    (hnd : (results.map EVResult.ev).Nodup)
    (hspec : ∀ r ∈ results, ∀ sp ∈ md.chargingStationsRows,
      (UniqueChargeRecord (allChargingStations md) eps sp.1 (a r sp.1) (b r sp.1) r ∧
        0 ≤ a r sp.1 ∧ a r sp.1 ≤ b r sp.1 ∧ b r sp.1 ≤ 24 ∧
        (∀ t < 24, chargeTimeOverlap t (a r sp.1) (b r sp.1) = 0 ∨
          eps < chargeTimeOverlap t (a r sp.1) (b r sp.1)) ∧
        dur r sp.1 = b r sp.1 - a r sp.1) ∨
      (NoChargeRecord (allChargingStations md) eps sp.1 r ∧ dur r sp.1 = 0)) :
    totalAggregatedDemand md results eps =
      (md.chargingStationsRows.map fun sp =>
        sp.2 * (results.map fun r => dur r sp.1).sum).sum := by
  unfold totalAggregatedDemand
  rw [show allChargingStations md = md.chargingStationsRows.map Prod.fst from by
    unfold allChargingStations; exact List.dedup_eq_self.2 hndS]
  rw [List.map_map]
  refine congrArg List.sum (List.map_congr_left ?_)
  intro sp hsp
  show ((List.range 24).map fun t => aggregatedDemand md results eps sp.1 t).sum
      = sp.2 * (results.map fun r => dur r sp.1).sum
  have hP : stationPowerMap md sp.1 = some sp.2 := stationPowerMap_lookup md hndS sp hsp
  have hAD : ∀ t : ℕ, aggregatedDemand md results eps sp.1 t
      = sp.2 * (results.map fun r =>
          ((chargingTimes md results eps) (r.ev, sp.1, t)).getD 0).sum := by
    intro t
    unfold aggregatedDemand
    rw [hP]
    rfl
  calc ((List.range 24).map fun t => aggregatedDemand md results eps sp.1 t).sum
      = ((List.range 24).map fun t => sp.2 * (results.map fun r =>
          ((chargingTimes md results eps) (r.ev, sp.1, t)).getD 0).sum).sum :=
        congrArg List.sum (List.map_congr_left fun t _ => hAD t)
    _ = sp.2 * ((List.range 24).map fun t => (results.map fun r =>
          ((chargingTimes md results eps) (r.ev, sp.1, t)).getD 0).sum).sum := by
        rw [List.sum_map_mul_left]
    _ = sp.2 * (results.map fun r => ((List.range 24).map fun t =>
          ((chargingTimes md results eps) (r.ev, sp.1, t)).getD 0).sum).sum := by
        rw [list_sum_map_comm]
    _ = sp.2 * (results.map fun r => dur r sp.1).sum := by
        refine congrArg (sp.2 * ·) (congrArg List.sum (List.map_congr_left ?_))
        intro r hr
        have hlookup : ∀ t : ℕ, (chargingTimes md results eps) (r.ev, sp.1, t)
            = evContribution (allChargingStations md) eps r (r.ev, sp.1, t) := fun t =>
          chargingTimes_lookup md results eps r sp.1 t hnd hr
        rcases hspec r hr sp hsp with ⟨hu, h0, hab2, h24, hdich, hdur⟩ | ⟨hn, hdur⟩
        · calc ((List.range 24).map fun t =>
              ((chargingTimes md results eps) (r.ev, sp.1, t)).getD 0).sum
              = ((List.range 24).map fun t =>
                  chargeTimeOverlap t (a r sp.1) (b r sp.1)).sum := by
                refine congrArg List.sum (List.map_congr_left ?_)
                intro t htm
                have ht24 : t < 24 := List.mem_range.1 htm
                rw [hlookup t, evContribution_unique (allChargingStations md) eps sp.1
                  (a r sp.1) (b r sp.1) r hu t ht24]
                rcases hdich t ht24 with hz | hgt
                · rw [hz]
                  split_ifs <;> rfl
                · rw [if_pos hgt]
                  rfl
            _ = b r sp.1 - a r sp.1 := sum_range24_overlap _ _ h0 hab2 h24
            _ = dur r sp.1 := hdur.symm
        · calc ((List.range 24).map fun t =>
              ((chargingTimes md results eps) (r.ev, sp.1, t)).getD 0).sum
              = ((List.range 24).map fun _ => (0 : ℚ)).sum :=
                congrArg List.sum (List.map_congr_left fun t _ => by
                  rw [hlookup t,
                    evContribution_no_charge (allChargingStations md) eps sp.1 r hn t]
                  rfl)
            _ = 0 := list_sum_map_zero _
            _ = dur r sp.1 := hdur.symm

/-- Closed witness for `total_demand_equals_energy`: for the spec's worked
example (one vehicle charging 1.5→3.25 at the power-50 station), the total
aggregated demand equals 50 · 1.75 = 87.5. -/
theorem total_demand_equals_energy_witness :
    totalAggregatedDemand mdEx resEx (1/100000) = 175/2 := by
  have hspec : ∀ r ∈ resEx, ∀ sp ∈ mdEx.chargingStationsRows,
      (UniqueChargeRecord (allChargingStations mdEx) (1/100000) sp.1
          ((fun _ _ => (3:ℚ)/2) r sp.1) ((fun _ _ => (13:ℚ)/4) r sp.1) r ∧
        0 ≤ (fun _ _ => (3:ℚ)/2) r sp.1 ∧
        (fun _ _ => (3:ℚ)/2) r sp.1 ≤ (fun _ _ => (13:ℚ)/4) r sp.1 ∧
        (fun _ _ => (13:ℚ)/4) r sp.1 ≤ 24 ∧
        (∀ t < 24, chargeTimeOverlap t ((fun _ _ => (3:ℚ)/2) r sp.1)
            ((fun _ _ => (13:ℚ)/4) r sp.1) = 0 ∨
          (1:ℚ)/100000 < chargeTimeOverlap t ((fun _ _ => (3:ℚ)/2) r sp.1)
            ((fun _ _ => (13:ℚ)/4) r sp.1)) ∧
        (fun _ _ => (7:ℚ)/4) r sp.1 =
          (fun _ _ => (13:ℚ)/4) r sp.1 - (fun _ _ => (3:ℚ)/2) r sp.1) ∨
      (NoChargeRecord (allChargingStations mdEx) (1/100000) sp.1 r ∧
        (fun _ _ => (7:ℚ)/4) r sp.1 = 0) := by
    intro r hr sp hsp
    left
    have heq : r = ⟨1, some [rowEx]⟩ := by simpa [resEx] using hr
    have hsp7 : sp = ((7 : ℤ), (50 : ℚ)) := by simpa [mdEx] using hsp
    subst heq
    subst hsp7
    refine ⟨⟨[], rowEx, [], rfl,
      ⟨rfl, by decide, by norm_num [indicatorClose, rowEx], rfl, rfl⟩,
      rfl, rfl, by simp, by simp⟩, by norm_num, by norm_num, by norm_num, ?_, by norm_num⟩
    intro t ht
    interval_cases t <;> norm_num [chargeTimeOverlap, min_def, max_def]
  rw [total_demand_equals_energy mdEx resEx (1/100000) (fun _ _ => (3:ℚ)/2)
    (fun _ _ => (13:ℚ)/4) (fun _ _ => (7:ℚ)/4) (by decide) (by decide) hspec]
  norm_num [mdEx, resEx]

/-- Map data with the single charging station 7 of power 1 for the
truncation counterexample. -/
def mdC5 : ScenarioMapData := ⟨[(7, 1)]⟩

/-- Solution row charging at station 7 from hour 23.5 to hour 25: the
session extends past the last hour bucket. -/
def rowC5 : IntersectionRow :=
  ⟨7, some 1, some 5, some 5, some (47/2), some 25, some 1, some (3/2), none⟩

/-- The past-midnight single-vehicle scenario. -/
def evC5 : EVResult := ⟨1, some [rowC5]⟩

/-- Result list of the past-midnight scenario. -/
def resC5 : List EVResult := [evC5]

/-- C5 counterexample: for a vehicle charging from hour 23.5 to hour 25 at
a station of power 1, the aggregator's total over all stations and buckets
is 1/2 (only bucket 23 overlaps), while power times the charging duration
(departure − arrival = 1.5) is 3/2; the aggregator truncates the part of
the session outside hours [0, 24). -/
theorem total_demand_counterexample :
    totalAggregatedDemand mdC5 resC5 (1/100000) = 1/2 ∧
    (mdC5.chargingStationsRows.map fun sp => sp.2 * ((25 : ℚ) - 47/2)).sum = 3/2 ∧
    ((1:ℚ)/2) ≠ 3/2 := by
  refine ⟨?_, by norm_num [mdC5], by norm_num⟩
  have hnd : (resC5.map EVResult.ev).Nodup := by decide
  have hu : UniqueChargeRecord (allChargingStations mdC5) (1/100000) 7 (47/2) 25 evC5 :=
    ⟨[], rowC5, [], rfl, ⟨rfl, by decide, by norm_num [indicatorClose, rowC5], rfl, rfl⟩,
      rfl, rfl, by simp, by simp⟩
  have hlook : ∀ t : ℕ, chargingTimes mdC5 resC5 (1/100000) (evC5.ev, 7, t) =
      evContribution (allChargingStations mdC5) (1/100000) evC5 (evC5.ev, 7, t) := fun t =>
    chargingTimes_lookup mdC5 resC5 (1/100000) evC5 7 t hnd (List.mem_cons_self _ _)
  have hval : ∀ t : ℕ, t < 24 →
      (chargingTimes mdC5 resC5 (1/100000) (evC5.ev, 7, t)).getD 0
      = thresholdedOverlap (1/100000) t (47/2) 25 := by
    intro t ht
    rw [hlook t, evContribution_unique (allChargingStations mdC5) (1/100000) 7
      (47/2) 25 evC5 hu t ht]
    unfold thresholdedOverlap
    split_ifs <;> rfl
  have hAD : ∀ t : ℕ, t < 24 → aggregatedDemand mdC5 resC5 (1/100000) 7 t
      = thresholdedOverlap (1/100000) t (47/2) 25 := by
    intro t ht
    unfold aggregatedDemand
    rw [show stationPowerMap mdC5 7 = some 1 from by norm_num [stationPowerMap, mdC5]]
    rw [show resC5.map
        (fun r => ((chargingTimes mdC5 resC5 (1/100000)) (r.ev, 7, t)).getD 0)
        = [((chargingTimes mdC5 resC5 (1/100000)) (evC5.ev, 7, t)).getD 0] from rfl]
    rw [hval t ht]
    simp
  unfold totalAggregatedDemand
  rw [show allChargingStations mdC5 = [7] from by decide]
  rw [show ([(7:ℤ)].map fun s => ((List.range 24).map fun t =>
      aggregatedDemand mdC5 resC5 (1/100000) s t).sum).sum
      = ((List.range 24).map fun t =>
          aggregatedDemand mdC5 resC5 (1/100000) 7 t).sum from by simp]
  rw [congrArg List.sum (List.map_congr_left fun t htm => hAD t (List.mem_range.1 htm))]
  norm_num [List.range_succ, thresholdedOverlap, chargeTimeOverlap, min_def, max_def]

end EVRouting
